import Mathlib

/-!
Verification development for the data-dashboard merge engine
(src/core/merger.py) and health scanner (src/core/scanner.py).

Modelling conventions for the shallow embedding:
* a pandas cell read with dtype=str is an `Option String`; `none` models the
  NaN / absent marker;
* Python float values are `PyFloat`: exact rationals together with nan and the
  two signed infinities; the builtin float(s) string conversion is modelled for
  decimal literals with optional sign, decimal point and exponent, plus the
  case-insensitive keywords inf / infinity / nan (numeric underscores and
  non-ASCII digit characters are outside the model);
* a DataFrame is a `Table`: a list of column names and a list of rows, each row
  a list of cells positionally aligned with the column list;
* file reading (pandas read_csv / read_excel) is an external collaborator and
  is modelled by handing the merge engine, per input file, either the decoded
  table or a read error;
* the regular-expression engine used by the pattern pass is an external
  collaborator and is modelled as a parameter: a compile function returning
  `none` for an invalid pattern and otherwise a search predicate;
* a Python exception escaping a function is modelled with `Except`.
-/

/-- A pandas cell read with dtype=str: a string, or `none` for NaN/absent. -/
abbrev Cell := Option String

/-- Fuel-bounded Euclidean algorithm; with fuel larger than the second
argument it computes the greatest common divisor, by structural recursion so
that the evaluator can reduce it. -/
def gcdFuel : Nat → Nat → Nat → Nat
  | 0, a, _ => a
  | _ + 1, a, 0 => a
  | fuel + 1, a, Nat.succ b => gcdFuel fuel (Nat.succ b) (a % Nat.succ b)

/-- Greatest common divisor (evaluator-friendly). -/
def natGcd (a b : Nat) : Nat := gcdFuel (b + 1) a b

/-- Exact rational numbers with evaluator-friendly arithmetic, kept
normalised (positive denominator, coprime with the numerator). -/
structure PyRat where
  n : Int
  d : Nat
deriving Repr, DecidableEq

/-- Build a normalised rational from a numerator and positive denominator. -/
def mkPyRat (num : Int) (den : Nat) : PyRat :=
  if den = 0 then ⟨0, 1⟩
  else
    let g := natGcd num.natAbs den
    ⟨num / (g : Int), den / g⟩

namespace PyRat

/-- Embed an integer. -/
def ofInt (k : Int) : PyRat := ⟨k, 1⟩

/-- Embed a natural number. -/
def ofNat (k : Nat) : PyRat := ⟨(k : Int), 1⟩

/-- Addition. -/
def add (a b : PyRat) : PyRat := mkPyRat (a.n * (b.d : Int) + b.n * (a.d : Int)) (a.d * b.d)

/-- Negation. -/
def neg (a : PyRat) : PyRat := ⟨-a.n, a.d⟩

/-- Subtraction. -/
def sub (a b : PyRat) : PyRat := a.add b.neg

/-- Multiplication. -/
def mul (a b : PyRat) : PyRat := mkPyRat (a.n * b.n) (a.d * b.d)

/-- Division (never used on a zero divisor in the embedding). -/
def div (a b : PyRat) : PyRat :=
  if b.n < 0 then mkPyRat (-(a.n * (b.d : Int))) (a.d * b.n.natAbs)
  else mkPyRat (a.n * (b.d : Int)) (a.d * b.n.natAbs)

/-- Strict order. -/
def blt (a b : PyRat) : Bool := a.n * (b.d : Int) < b.n * (a.d : Int)

/-- Non-strict order. -/
def ble (a b : PyRat) : Bool := a.n * (b.d : Int) ≤ b.n * (a.d : Int)

/-- Floor. -/
def floor (a : PyRat) : Int := Int.fdiv a.n (a.d : Int)

/-- Ceiling. -/
def ceil (a : PyRat) : Int := -(Int.fdiv (-a.n) (a.d : Int))

/-- Negativity test. -/
def isNeg (a : PyRat) : Bool := a.n < 0

/-- Zero test. -/
def isZero (a : PyRat) : Bool := a.n == 0

end PyRat

/-- Python float values: exact rationals, nan, and the signed infinities
(`inf true` is negative infinity). -/
inductive PyFloat where
  | num (q : PyRat)
  | nan
  | inf (neg : Bool)
deriving Repr, DecidableEq

namespace PyFloat

/-- Whether the value is nan. -/
def isNan : PyFloat → Bool
  | nan => true
  | _ => false

/-- Python strict less-than: nan is incomparable (always false). -/
def lt : PyFloat → PyFloat → Bool
  | num a, num b => a.blt b
  | num _, inf b => !b
  | inf a, num _ => a
  | inf a, inf b => a && !b
  | _, _ => false

/-- Python less-or-equal: nan is incomparable (always false). -/
def le : PyFloat → PyFloat → Bool
  | num a, num b => a.ble b
  | num _, inf b => !b
  | inf a, num _ => a
  | inf a, inf b => a || !b
  | _, _ => false

/-- Python equality test: nan is not equal to anything, including itself. -/
def eqv : PyFloat → PyFloat → Bool
  | num a, num b => a == b
  | inf a, inf b => a == b
  | _, _ => false

/-- Negation. -/
def negate : PyFloat → PyFloat
  | num q => num q.neg
  | nan => nan
  | inf b => inf (!b)

/-- Addition with the IEEE-style special cases (inf + -inf = nan). -/
def add : PyFloat → PyFloat → PyFloat
  | num a, num b => num (a.add b)
  | num _, inf b => inf b
  | inf a, num _ => inf a
  | inf a, inf b => if a == b then inf a else nan
  | _, _ => nan

/-- Subtraction. -/
def sub (a b : PyFloat) : PyFloat := a.add b.negate

/-- Multiplication with the IEEE-style special cases (0 * inf = nan). -/
def mul : PyFloat → PyFloat → PyFloat
  | num a, num b => num (a.mul b)
  | num a, inf b => if a.isZero then nan else inf (xor b a.isNeg)
  | inf b, num a => if a.isZero then nan else inf (xor b a.isNeg)
  | inf a, inf b => inf (xor a b)
  | _, _ => nan

end PyFloat

/-- Value of a list of ASCII digit characters. -/
def digitsToNat (cs : List Char) : Nat :=
  cs.foldl (fun acc c => acc * 10 + (c.toNat - 48)) 0

/-- Mantissa of a Python float literal: digits, optionally a decimal point and
further digits, with at least one digit overall. -/
def parseMantissa (cs : List Char) : Option PyRat :=
  let ip := cs.takeWhile Char.isDigit
  let rest := cs.dropWhile Char.isDigit
  match rest with
  | [] => if ip.isEmpty then none else some (PyRat.ofNat (digitsToNat ip))
  | c :: rest2 =>
    if c == '.' then
      let fp := rest2.takeWhile Char.isDigit
      let rest3 := rest2.dropWhile Char.isDigit
      if !rest3.isEmpty then none
      else if ip.isEmpty && fp.isEmpty then none
      else some ((PyRat.ofNat (digitsToNat ip)).add
        ((PyRat.ofNat (digitsToNat fp)).div (PyRat.ofNat (Nat.pow 10 fp.length))))
    else none

/-- Strip one optional leading sign; returns (isNegative, remainder). -/
def parseSign : List Char → Bool × List Char
  | '+' :: t => (false, t)
  | '-' :: t => (true, t)
  | t => (false, t)

/-- Decimal part of a Python float literal, with an optional exponent. -/
def parseDecimal (cs : List Char) : Option PyRat :=
  let mant := cs.takeWhile (fun c => !(c == 'e' || c == 'E'))
  let rest := cs.dropWhile (fun c => !(c == 'e' || c == 'E'))
  match rest with
  | [] => parseMantissa mant
  | _ :: expPart =>
    match parseMantissa mant with
    | none => none
    | some m =>
      let (eneg, eds) := parseSign expPart
      if eds.isEmpty || !eds.all Char.isDigit then none
      else
        let e := digitsToNat eds
        some (if eneg then m.div (PyRat.ofNat (Nat.pow 10 e))
              else m.mul (PyRat.ofNat (Nat.pow 10 e)))

/-- The Python builtin float(s) applied to an already stripped string:
an optional sign followed by a decimal literal, or the case-insensitive
keywords inf / infinity / nan. -/
def pyParseFloat (s : String) : Option PyFloat :=
  let (neg, body) := parseSign s.toList
  let lower := body.map Char.toLower
  if lower == "inf".toList || lower == "infinity".toList then some (.inf neg)
  else if lower == "nan".toList then some .nan
  else (parseDecimal body).map (fun q => .num (if neg then q.neg else q))

/-- Python str.strip(): remove surrounding whitespace (evaluator-friendly
replacement for String.trim). -/
def pyStrip (s : String) : String :=
  String.mk (((s.toList.dropWhile Char.isWhitespace).reverse.dropWhile
    Char.isWhitespace).reverse)

/-- Python str.lower() (evaluator-friendly replacement for String.toLower). -/
def pyLower (s : String) : String := String.mk (s.toList.map Char.toLower)

/-- Python str.endswith (evaluator-friendly replacement for
String.endsWith). -/
def pyEndsWith (s suffix : String) : Bool := suffix.toList.isSuffixOf s.toList

/-- Python slicing s[:n] (evaluator-friendly replacement for String.take). -/
def pyTake (s : String) (k : Nat) : String := String.mk (s.toList.take k)

/-- Lexicographic comparison of character lists by code point. -/
def charListLe : List Char → List Char → Bool
  | [], _ => true
  | _ :: _, [] => false
  | a :: as, b :: bs => if a == b then charListLe as bs else decide (a.toNat < b.toNat)

/-- Python string comparison (code-point lexicographic). -/
def strLe (a b : String) : Bool := charListLe a.toList b.toList

/-- Python s.rstrip with the single character percent: drop every trailing
percent sign. -/
def rstripPercent (s : String) : String :=
  String.mk ((s.toList.reverse.dropWhile (fun c => c == '%')).reverse)

/-- scanner._is_empty: NaN, a blank string, or (case-insensitively) the string
nan count as empty. -/
def _is_empty (value : Cell) : Bool :=
  match value with
  | none => true
  | some raw =>
    let s := pyStrip raw
    s == "" || pyLower s == "nan"

/-- scanner._to_float: convert to a float, with support for a trailing percent
sign (50% becomes 50.0); empty or unparseable values give `none`. -/
def _to_float (value : Cell) : Option PyFloat :=
  match value with
  | none => none
  | some raw =>
    if pyStrip raw == "" then none
    else
      let s := pyStrip raw
      match pyParseFloat s with
      | some f => some f
      | none =>
        if pyEndsWith s "%" then pyParseFloat (pyStrip (rstripPercent s))
        else none

/-- scanner._is_numeric_value: empty values count as numeric; otherwise the
value must parse as a float, possibly after removing trailing percent signs. -/
def _is_numeric_value (value : Cell) : Bool :=
  match value with
  | none => true
  | some raw =>
    if pyStrip raw == "" then true
    else
      let s := pyStrip raw
      match pyParseFloat s with
      | some _ => true
      | none => pyEndsWith s "%" && (pyParseFloat (pyStrip (rstripPercent s))).isSome

/-- A DataFrame read with dtype=str: named columns, rows of cells, each row
positionally aligned with the column list. -/
structure Table where
  cols : List String
  rows : List (List Cell)
deriving Repr, DecidableEq

/-- Position of a column label in a column list (pandas label lookup; the
first occurrence wins). -/
def colIdx? : List String → String → Option Nat
  | [], _ => none
  | a :: l, c => if a == c then some 0 else (colIdx? l c).map (fun i => i + 1)

/-- Cell access df.iloc[r][c]; out-of-range or unknown columns give the
absent marker. With duplicate column labels the first occurrence is used. -/
def Table.getCell (t : Table) (r : Nat) (c : String) : Cell :=
  match t.rows[r]?, colIdx? t.cols c with
  | some row, some i => (row[i]?).getD none
  | _, _ => none

/-- df.reindex(columns=cols): the column-aligned view used by the merge
engine as its schema aligner - matching columns are copied, missing columns
are filled with the absent marker, other columns are dropped. -/
def Table.reindex (t : Table) (cols : List String) : Table :=
  { cols := cols,
    rows := t.rows.map (fun row =>
      cols.map (fun c =>
        match colIdx? t.cols c with
        | some i => (row[i]?).getD none
        | none => none)) }

/-- The whole column df[col] as a list of cells, one per row. -/
def Table.columnCells (t : Table) (c : String) : List Cell :=
  (List.range t.rows.length).map (fun r => t.getCell r c)

/-- The empty DataFrame. -/
def emptyTable : Table := ⟨[], []⟩

/-- Insert into an already sorted list. -/
def insertSorted (le : α → α → Bool) (a : α) : List α → List α
  | [] => [a]
  | b :: l => if le a b then a :: b :: l else b :: insertSorted le a l

/-- Ascending sort (insertion sort, evaluator-friendly; used for Python
sorted() on sets of distinct strings and for the quantile computation, where
any comparison sort yields the same sequence). -/
def sortBy (le : α → α → Bool) : List α → List α
  | [] => []
  | a :: l => insertSorted le a (sortBy le l)

/-! ## The reconciliation report (merger.py schema_report) -/

/-- One entry of schema_report["tables"], with the fields the merge loop
initialises per file. -/
structure TableEntry where
  file : String := ""
  row_count : Nat := 0
  missing_columns : List String := []
  extra_columns : List String := []
  status : String := "ok"
  match_rate : Option PyRat := none
  error : Option String := none
  message : Option String := none
deriving Repr, DecidableEq

/-- The schema_report dictionary built by TableMerger.merge_and_report.
(The Python dict only materialises the keys it sets; absent keys are modelled
by the defaults.) -/
structure SchemaReport where
  reference_file : String := ""
  reference_columns : List String := []
  tables : List TableEntry := []
  merged_row_count : Nat := 0
  fatal_mismatch_count : Nat := 0
  merge_warning : Option String := none
  error : Option String := none
deriving Repr, DecidableEq

/-! ## Scanner helpers (scanner.py) -/

/-- scanner._row_index_to_file_index, inner loop: walk the entries keeping the
cumulative row count; the first entry whose range contains the row wins. -/
def rowToFileAux (rowIndex : Nat) : List TableEntry → Nat → Nat → Nat
  | [], _, _ => 0
  | t :: ts, cum, i =>
    if rowIndex < cum + t.row_count then i
    else rowToFileAux rowIndex ts (cum + t.row_count) (i + 1)

/-- scanner._row_index_to_file_index: infer which file (0-based) a merged row
came from; falls back to 0 when beyond every range. -/
def _row_index_to_file_index (rowIndex : Nat) (report : SchemaReport) : Nat :=
  rowToFileAux rowIndex report.tables 0 0

/-- scanner._get_missing_columns_by_file followed by the .get(i, empty set)
lookup done in the scan loop. -/
def missingColsOfFile (report : SchemaReport) (i : Nat) : List String :=
  ((report.tables[i]?).map (fun t => t.missing_columns)).getD []

/-- pandas Series.quantile with the default linear interpolation, over an
already parsed list of float values (nan-free in every use). -/
def pyQuantile (vals : List PyFloat) (q : PyRat) : PyFloat :=
  let s := sortBy PyFloat.le vals
  let n := s.length
  let pos : PyRat := q.mul ((PyRat.ofNat n).sub (PyRat.ofNat 1))
  let lo := pos.floor.toNat
  let hi := pos.ceil.toNat
  let frac : PyRat := pos.sub (PyRat.ofInt pos.floor)
  let vlo := s.getD lo .nan
  let vhi := s.getD hi .nan
  vlo.add ((PyFloat.num frac).mul (vhi.sub vlo))

/-- scanner._outlier_bounds_iqr with the default k = 1.5: parse the column
(dropna also removes nan results), require at least 4 numeric values, and
produce the IQR bounds, collapsed to (Q1, Q3) when the IQR is zero. -/
def _outlier_bounds_iqr (cells : List Cell) : Option PyFloat × Option PyFloat :=
  let numeric := (cells.filterMap _to_float).filter (fun f => !f.isNan)
  if numeric.length < 4 then (none, none)
  else
    let q1 := pyQuantile numeric (mkPyRat 1 4)
    let q3 := pyQuantile numeric (mkPyRat 3 4)
    let iqr := q3.sub q1
    if iqr.eqv (.num (PyRat.ofNat 0)) then (some q1, some q3)
    else (some (q1.sub ((PyFloat.num (mkPyRat 3 2)).mul iqr)),
          some (q3.add ((PyFloat.num (mkPyRat 3 2)).mul iqr)))

/-- scanner._eval_constraint: true means the constraint is satisfied; a
missing side or an unknown operator satisfies everything. -/
def _eval_constraint (left_val : Option PyFloat) (op : String) (right_val : Option PyFloat) : Bool :=
  match left_val, right_val with
  | some l, some r =>
    if op == ">" then PyFloat.lt r l
    else if op == "<" then PyFloat.lt l r
    else if op == ">=" then PyFloat.le r l
    else if op == "<=" then PyFloat.le l r
    else if op == "==" then PyFloat.eqv l r
    else true
  | _, _ => true

/-! ## The health scanner (scanner.py DataHealthScanner) -/

/-- One element of the errors list of the health manifest. -/
structure DefectRecord where
  row_index : Nat
  col_name : String
  error_type : String
  severity : String
  message : String
deriving Repr, DecidableEq

/-- One configured cross-column constraint; op defaults to the string > at
construction time in the source. -/
structure Constraint where
  left : String
  op : String
  right : String
deriving Repr, DecidableEq

/-- The scanner with its five configuration fields, as they stand after the
constructor applied its defaults. -/
structure DataHealthScanner where
  composite_key_columns : List String
  numeric_columns : List String
  outlier_columns : List String
  pattern_columns : List (String × String)
  constraints : List Constraint
deriving Repr, DecidableEq

/-- The counts block of the health manifest. -/
structure HealthCounts where
  structural_nulls : Nat
  business_nulls : Nat
  type_errors : Nat
  duplicates : Nat
  outliers : Nat
  pattern_mismatch : Nat
  constraint_violation : Nat
  total : Nat
deriving Repr, DecidableEq

/-- The health manifest returned by scan. -/
structure HealthManifest where
  errors : List DefectRecord
  summary : String
  counts : HealthCounts
deriving Repr, DecidableEq

/-- Python str(value) for a non-missing cell (missing cells print as nan). -/
def cellStr (v : Cell) : String := v.getD "nan"

/-- Python repr of a list of strings, as interpolated into the duplicate
message (strings without quotes needing escapes). -/
def pyReprStrList (l : List String) : String :=
  "[" ++ String.intercalate ", " (l.map (fun s => "\x27" ++ s ++ "\x27")) ++ "]"

/-- Scan pass 1, one cell: an empty cell yields one record, structural when
its column is among the missing columns of the file the row is attributed to,
business otherwise. -/
def nullCellRecord (df : Table) (report : SchemaReport) (rowIndex : Nat)
    (col : String) : Option DefectRecord :=
  let missingCols := missingColsOfFile report (_row_index_to_file_index rowIndex report)
  let val := df.getCell rowIndex col
  if !(_is_empty val) then none
  else if missingCols.contains col then
    some { row_index := rowIndex, col_name := col,
           error_type := "null_structural", severity := "structural",
           message := "合并时该列在源表中缺失，已补空" }
  else
    some { row_index := rowIndex, col_name := col,
           error_type := "null_business", severity := "business",
           message := "空值或空字符串" }

/-- Scan pass 1, one row: the cells are visited in column order. -/
def nullRowRecords (df : Table) (report : SchemaReport) (rowIndex : Nat) :
    List DefectRecord :=
  df.cols.filterMap (nullCellRecord df report rowIndex)

/-- Scan pass 1 (null classification). -/
def nullErrors (df : Table) (report : SchemaReport) : List DefectRecord :=
  (List.range df.rows.length).flatMap (nullRowRecords df report)

/-- Scan pass 2 (type consistency) for the configured numeric columns. -/
def typeErrors (scanner : DataHealthScanner) (df : Table) : List DefectRecord :=
  scanner.numeric_columns.flatMap (fun col =>
    if !(df.cols.contains col) then []
    else
      (List.range df.rows.length).filterMap (fun rowIndex =>
        let val := df.getCell rowIndex col
        if _is_empty val then none
        else if _is_numeric_value val then none
        else some { row_index := rowIndex, col_name := col,
                    error_type := "type_inconsistent", severity := "business",
                    message := "期望数值，实际为: " ++ pyTake (cellStr val) 50 }))

/-- The configured composite-key columns that exist in the table. -/
def keyColsOf (scanner : DataHealthScanner) (df : Table) : List String :=
  scanner.composite_key_columns.filter (fun c => df.cols.contains c)

/-- The key tuple of a row: per key column, str(value), or the empty string
for a missing value. -/
def rowKeyTuple (df : Table) (keyCols : List String) (r : Nat) : List String :=
  keyCols.map (fun c =>
    match df.getCell r c with
    | some s => s
    | none => "")

/-- Scan pass 3 inner loop: walk the rows carrying the set of already seen
key tuples; a key seen before yields a duplicate record. -/
def dupScanAux (df : Table) (keyCols : List String) :
    List Nat → List (List String) → List DefectRecord
  | [], _ => []
  | r :: rs, seen =>
    let key := rowKeyTuple df keyCols r
    if seen.contains key then
      { row_index := r, col_name := String.intercalate "," keyCols,
        error_type := "duplicate", severity := "business",
        message := "与组合主键 " ++ pyReprStrList keyCols ++ " 重复" }
        :: dupScanAux df keyCols rs seen
    else dupScanAux df keyCols rs (key :: seen)

/-- Scan pass 3 (duplicates): skipped entirely when no configured key column
exists in the table. -/
def duplicateErrors (scanner : DataHealthScanner) (df : Table) : List DefectRecord :=
  let keyCols := keyColsOf scanner df
  if keyCols.isEmpty then []
  else dupScanAux df keyCols (List.range df.rows.length) []

/-- The union of the numeric and outlier columns (a Python set in the source;
its iteration order is arbitrary there, modelled as first-occurrence order). -/
def outlierColsUnion (scanner : DataHealthScanner) : List String :=
  (scanner.numeric_columns ++ scanner.outlier_columns).eraseDups

/-- Scan pass 4, one cell against the column's bounds. -/
def outlierCellRecord (df : Table) (col : String) (lower upper : Option PyFloat)
    (rowIndex : Nat) : Option DefectRecord :=
  let val := df.getCell rowIndex col
  if _is_empty val then none
  else
    match _to_float val with
    | none => none
    | some f =>
      if (lower.map (fun lo => f.lt lo)).getD false
          || (upper.map (fun up => up.lt f)).getD false then
        some { row_index := rowIndex, col_name := col,
               error_type := "outlier", severity := "business",
               message := "数值 " ++ cellStr val ++ " 超出该列正常范围（异常值），建议确认" }
      else none

/-- Scan pass 4 for one column: IQR bounds over the parsed column, then every
non-empty parseable value outside the bounds is an outlier. -/
def outlierErrorsForCol (df : Table) (col : String) : List DefectRecord :=
  if !(df.cols.contains col) then []
  else
    let bounds := _outlier_bounds_iqr (df.columnCells col)
    match bounds with
    | (none, none) => []
    | (lower, upper) =>
      (List.range df.rows.length).filterMap (outlierCellRecord df col lower upper)

/-- Scan pass 4 (outliers) over the union of numeric and outlier columns. -/
def outlierErrors (scanner : DataHealthScanner) (df : Table) : List DefectRecord :=
  (outlierColsUnion scanner).flatMap (fun col => outlierErrorsForCol df col)

/-- Scan pass 5 (pattern check). The regular-expression engine is the
parameter: compile returns none for an invalid pattern (the column is then
silently skipped) and otherwise the partial-match search predicate. -/
def patternErrors (compile : String → Option (String → Bool))
    (scanner : DataHealthScanner) (df : Table) : List DefectRecord :=
  scanner.pattern_columns.flatMap (fun pc =>
    if !(df.cols.contains pc.1) then []
    else
      match compile pc.2 with
      | none => []
      | some search =>
        (List.range df.rows.length).filterMap (fun rowIndex =>
          let val := df.getCell rowIndex pc.1
          if _is_empty val then none
          else if search (pyStrip (cellStr val)) then none
          else some { row_index := rowIndex, col_name := pc.1,
                      error_type := "pattern_mismatch", severity := "business",
                      message := "格式不符合规则（预期匹配: " ++ pyTake pc.2 30 ++ "…）" }))

/-- Scan pass 6, one constraint at one row. -/
def constraintRowRecord (df : Table) (c : Constraint) (rowIndex : Nat) :
    Option DefectRecord :=
  let left_val := _to_float (df.getCell rowIndex c.left)
  let right_val := _to_float (df.getCell rowIndex c.right)
  if _eval_constraint left_val c.op right_val then none
  else some { row_index := rowIndex, col_name := c.left ++ " vs " ++ c.right,
              error_type := "constraint_violation", severity := "business",
              message := "列「" ++ c.left ++ "」应与「" ++ c.right ++ "」满足 " ++ c.op ++ " 关系" }

/-- Scan pass 6 for one configured constraint: rows where the parsed values
violate the operator; a constraint with a falsy or unknown column name is
silently skipped. -/
def constraintErrorsFor (df : Table) (c : Constraint) : List DefectRecord :=
  if c.left == "" || c.right == "" || !(df.cols.contains c.left)
      || !(df.cols.contains c.right) then []
  else (List.range df.rows.length).filterMap (constraintRowRecord df c)

/-- Scan pass 6 (cross-column constraints). -/
def constraintErrors (scanner : DataHealthScanner) (df : Table) : List DefectRecord :=
  scanner.constraints.flatMap (fun c => constraintErrorsFor df c)

/-- DataHealthScanner.scan: the six defect passes in source order followed by
the aggregation pass building counts and the natural-language summary. -/
def DataHealthScanner.scan (scanner : DataHealthScanner)
    (compile : String → Option (String → Bool))
    (df : Table) (report : SchemaReport) : HealthManifest :=
  let errors :=
    nullErrors df report ++ typeErrors scanner df ++ duplicateErrors scanner df
      ++ outlierErrors scanner df ++ patternErrors compile scanner df
      ++ constraintErrors scanner df
  let n_structural := errors.countP (fun e => e.severity == "structural")
  let n_business_null := errors.countP (fun e => e.error_type == "null_business")
  let n_type := errors.countP (fun e => e.error_type == "type_inconsistent")
  let n_dup := errors.countP (fun e => e.error_type == "duplicate")
  let n_outlier := errors.countP (fun e => e.error_type == "outlier")
  let n_pattern := errors.countP (fun e => e.error_type == "pattern_mismatch")
  let n_constraint := errors.countP (fun e => e.error_type == "constraint_violation")
  let parts : List String :=
    (if n_structural > 0 then [toString n_structural ++ " 处结构性空值（合并缺列）"] else [])
      ++ (if n_business_null > 0 then [toString n_business_null ++ " 处业务空值"] else [])
      ++ (if n_type > 0 then [toString n_type ++ " 处类型不一致"] else [])
      ++ (if n_dup > 0 then [toString n_dup ++ " 处重复项"] else [])
      ++ (if n_outlier > 0 then [toString n_outlier ++ " 处异常值"] else [])
      ++ (if n_pattern > 0 then [toString n_pattern ++ " 处格式不匹配"] else [])
      ++ (if n_constraint > 0 then [toString n_constraint ++ " 处逻辑约束违反"] else [])
  let summary := if parts.isEmpty then "未发现异常" else "发现 " ++ String.intercalate "，" parts
  { errors := errors,
    summary := summary,
    counts := { structural_nulls := n_structural, business_nulls := n_business_null,
                type_errors := n_type, duplicates := n_dup, outliers := n_outlier,
                pattern_mismatch := n_pattern, constraint_violation := n_constraint,
                total := errors.length } }

/-! ## The merge engine (merger.py TableMerger.merge_and_report) -/

/-- One input file handed to the merge engine: its name, and the outcome of
the external table reader (a decoded table, or the read error raised). -/
structure MergeInput where
  name : String
  read : Except String Table

/-- The pair returned by merge_and_report: the merged table and the report. -/
structure MergeResult where
  df : Table
  report : SchemaReport
deriving Repr, DecidableEq

/-- merger._strip_primary_key_columns on one cell: astype(str) turns the NaN
marker into the string nan, then surrounding whitespace is stripped. -/
def stripKeyCell : Cell → Cell
  | none => some "nan"
  | some s => some (pyStrip s)

/-- One row of merger._strip_primary_key_columns: walk the column labels and
the cells together, stripping the cells of key columns. -/
def stripRow (keyCols : List String) : List String → List Cell → List Cell
  | _, [] => []
  | [], row => row
  | c :: cs, cell :: rest =>
    (if keyCols.contains c then stripKeyCell cell else cell) :: stripRow keyCols cs rest

/-- merger._strip_primary_key_columns: strip every key column present. -/
def stripKeys (t : Table) (keyCols : List String) : Table :=
  { cols := t.cols, rows := t.rows.map (fun row => stripRow keyCols t.cols row) }

/-- The template_incremental pre-pass: the union of the columns of every
readable file (a Python set, realised here in sorted order as the source
sorts it), appended after the baseline columns. -/
def computeIncrementalCols (files : List MergeInput) (colsArg : Option (List String)) : List String :=
  let allCols := ((files.filterMap (fun f => f.read.toOption)).flatMap (fun t => t.cols)).eraseDups
  let baselineList : List String :=
    match colsArg with
    | some l => l
    | none =>
      match files with
      | [] => []
      | f0 :: _ => ((f0.read.toOption).map (fun t => t.cols)).getD []
  let extra := sortBy strLe
    (allCols.filter (fun c => !(baselineList.contains c)))
  baselineList ++ extra

/-- The mutable state of the merge loop: the report entries so far, the kept
aligned tables, the fatal-mismatch count, cols_to_use and the recorded
reference columns. -/
structure MState where
  tables : List TableEntry
  merged : List Table
  fatal : Nat
  colsToUse : Option (List String)
  refCols : List String
deriving Repr, DecidableEq

/-- Processing of file 0 (loop iteration i = 0): a read failure records a
read_error entry; duplicate column names abort the merge with the top-level
error report (inl); otherwise the baseline is fixed and the table is kept
(unaligned when a key join with incremental columns is requested, aligned
otherwise). -/
def mergeHead (f0 : MergeInput) (colsToUse0 : Option (List String))
    (keyCols : List String) (incr : Bool) : Sum SchemaReport MState :=
  match f0.read with
  | .error e =>
    .inr { tables := [{ file := f0.name, status := "read_error", error := some e }],
           merged := [], fatal := 0, colsToUse := colsToUse0, refCols := [] }
  | .ok df0 =>
    let df := if keyCols.isEmpty then df0 else stripKeys df0 keyCols
    let actual := df.cols
    if actual.Nodup then
      let ctu := match colsToUse0 with
        | none => actual
        | some l => if l.isEmpty then actual else l
      let firstMerged := if !keyCols.isEmpty && incr then df else df.reindex ctu
      .inr { tables := [{ file := f0.name, row_count := df.rows.length,
                          missing_columns := ctu.filter (fun c => !(actual.contains c)),
                          extra_columns := actual.filter (fun c => !(ctu.contains c)),
                          status := "ok" }],
             merged := [firstMerged], fatal := 0, colsToUse := some ctu, refCols := ctu }
    else
      .inl { reference_file := f0.name, reference_columns := actual,
             error := some "基准表存在重复列名，无法合并" }

/-- Loop iteration for a file with i > 0. Reaching the baseline-set
construction with cols_to_use still None raises a TypeError in the source
(file 0 unreadable, no baseline, no incremental pre-pass), modelled as an
Except error. -/
def mergeStepRest (keyCols : List String) (st : MState) (f : MergeInput) :
    Except String MState :=
  match f.read with
  | .error e =>
    .ok { st with tables := st.tables
            ++ [{ file := f.name, status := "read_error", error := some e }] }
  | .ok df0 =>
    let df := if keyCols.isEmpty then df0 else stripKeys df0 keyCols
    match st.colsToUse with
    | none => .error ("TypeError: argument of type \x27NoneType\x27 is not iterable")
    | some ctu =>
      let actual := df.cols
      let inter := actual.filter (fun c => ctu.contains c)
      if inter.isEmpty then
        .ok { st with
              tables := st.tables ++ [{ file := f.name, row_count := df.rows.length,
                                        missing_columns := ctu, extra_columns := actual,
                                        status := "Fatal Mismatch",
                                        message := some "与基准表列名无交集，已跳过该表" }],
              fatal := st.fatal + 1 }
      else
        .ok { st with
              tables := st.tables ++ [{ file := f.name, row_count := df.rows.length,
                                        missing_columns := ctu.filter (fun c => !(actual.contains c)),
                                        extra_columns := actual.filter (fun c => !(ctu.contains c)),
                                        status := "ok" }],
              merged := st.merged ++ [df.reindex ctu] }

/-- The merge loop over the files after the first. -/
def mergeLoop (keyCols : List String) : MState → List MergeInput → Except String MState
  | st, [] => .ok st
  | st, f :: fs =>
    match mergeStepRest keyCols st f with
    | .ok st2 => mergeLoop keyCols st2 fs
    | .error e => .error e

/-- The key tuple of a positional row under the given column layout. -/
def rowKeyInRow (cols keyCols : List String) (row : List Cell) : List Cell :=
  keyCols.map (fun c =>
    match colIdx? cols c with
    | some i => (row[i]?).getD none
    | none => none)

/-- drop_duplicates(subset=keyCols, keep=first) inner loop. -/
def dropDupRows (cols keyCols : List String) :
    List (List Cell) → List (List Cell) → List (List Cell)
  | [], _ => []
  | row :: rs, seen =>
    let k := rowKeyInRow cols keyCols row
    if seen.contains k then dropDupRows cols keyCols rs seen
    else row :: dropDupRows cols keyCols rs (k :: seen)

/-- df.drop_duplicates(subset=keyCols, keep=first). -/
def Table.dropDuplicates (t : Table) (keyCols : List String) : Table :=
  { cols := t.cols, rows := dropDupRows t.cols keyCols t.rows [] }

/-- left.merge(right, on=mergeOn, how=left) as called in the source: the
right table is pre-restricted to the key columns plus its genuinely new
columns and key-deduplicated, so each left row matches at most one right row
(the first one) and no suffixed column is created. -/
def leftJoin (left right : Table) (mergeOn : List String) : Table :=
  let addCols := right.cols.filter (fun c => !(left.cols.contains c))
  { cols := left.cols ++ addCols,
    rows := left.rows.map (fun lrow =>
      let lkey := rowKeyInRow left.cols mergeOn lrow
      match right.rows.find? (fun rrow => rowKeyInRow right.cols mergeOn rrow == lkey) with
      | some rrow => lrow ++ addCols.map (fun c =>
          match colIdx? right.cols c with
          | some i => (rrow[i]?).getD none
          | none => none)
      | none => lrow ++ addCols.map (fun _ => (none : Cell))) }

/-- The post-join cleanup dropping every column whose name ends in _dup. -/
def Table.dropDupSuffixCols (t : Table) : Table :=
  t.reindex (t.cols.filter (fun c => !(pyEndsWith c "_dup")))

/-- merger.MATCH_RATE_WARN_THRESHOLD. -/
def MATCH_RATE_WARN_THRESHOLD : PyRat := mkPyRat 4 5

/-- Python round(x, 4): round half to even at four decimal places (the
float-representation noise of the source is outside the model). -/
def roundHalfEven (q : PyRat) : Int :=
  let f := q.floor
  let frac := q.sub (PyRat.ofInt f)
  if frac.blt (mkPyRat 1 2) then f
  else if (mkPyRat 1 2).blt frac then f + 1
  else if f % 2 == 0 then f else f + 1

/-- round(rate, 4). -/
def roundTo4 (q : PyRat) : PyRat :=
  (PyRat.ofInt (roundHalfEven (q.mul (PyRat.ofNat 10000)))).div (PyRat.ofNat 10000)

/-- Write the match rate onto the report entry at the given position, when it
exists (the source guards with a length test). -/
def setMatchRate : List TableEntry → Nat → PyRat → List TableEntry
  | [], _, _ => []
  | e :: es, 0, r => { e with match_rate := some r } :: es
  | e :: es, Nat.succ i, r => e :: setMatchRate es i r

/-- The state threaded through the key-join loop: the running left table, the
report entries, the merge warning, and the position in the kept-table list. -/
structure JState where
  left : Table
  tables : List TableEntry
  warning : Option String
  idx : Nat
deriving Repr, DecidableEq

/-- One iteration of the key-join loop. -/
def joinStep (anchor : Table) (keyColsUse : List String) (s : JState) (right : Table) : JState :=
  let mergeOn := keyColsUse.filter (fun c => s.left.cols.contains c && right.cols.contains c)
  if mergeOn.isEmpty then { s with idx := s.idx + 1 }
  else
    let rightOnly := right.cols.filter (fun c => !(s.left.cols.contains c))
    let rightMerge := (right.reindex (mergeOn ++ rightOnly)).dropDuplicates mergeOn
    let joined := (leftJoin s.left rightMerge mergeOn).dropDupSuffixCols
    let totalLeft := anchor.rows.length
    let rightKeys := (right.rows.map (fun row => rowKeyInRow right.cols mergeOn row)).eraseDups
    let leftKeys := (anchor.rows.map (fun row => rowKeyInRow anchor.cols mergeOn row)).eraseDups
    let matched := (leftKeys.filter (fun k => rightKeys.contains k)).length
    let rate : PyRat := if totalLeft == 0 then PyRat.ofNat 1
      else (PyRat.ofNat matched).div (PyRat.ofNat totalLeft)
    let tables2 := setMatchRate s.tables s.idx (roundTo4 rate)
    let warning2 :=
      if rate.blt MATCH_RATE_WARN_THRESHOLD && s.warning.isNone then
        some "发现大量主键无法匹配，请检查是否存在同名异义或格式问题。"
      else s.warning
    { left := joined, tables := tables2, warning := warning2, idx := s.idx + 1 }

/-- pd.concat(axis=0, ignore_index=True): the columns are the union in order
of first appearance; every part is aligned onto that union. -/
def concatTables (ts : List Table) : Table :=
  let cols := (ts.flatMap (fun t => t.cols)).eraseDups
  { cols := cols, rows := ts.flatMap (fun t => (t.reindex cols).rows) }

/-- The combine step after the loop: stack, or key join when primary keys
were supplied and at least one occurs in the first kept table. -/
def finalizeMerge (st : MState) (keyCols : List String) (refFile : String) : MergeResult :=
  let baseReport : SchemaReport :=
    { reference_file := refFile, reference_columns := st.refCols, tables := st.tables,
      merged_row_count := 0, fatal_mismatch_count := st.fatal, merge_warning := none,
      error := none }
  match st.merged with
  | [] => { df := emptyTable, report := baseReport }
  | anchor :: restMerged =>
    let stacked : MergeResult :=
      let result := concatTables (anchor :: restMerged)
      { df := result, report := { baseReport with merged_row_count := result.rows.length } }
    if keyCols.isEmpty then stacked
    else
      let keyColsUse := keyCols.filter (fun c => anchor.cols.contains c)
      if keyColsUse.isEmpty then stacked
      else
        let s := restMerged.foldl (joinStep anchor keyColsUse)
          { left := anchor, tables := st.tables, warning := none, idx := 1 }
        let result := s.left.reindex st.refCols
        { df := result,
          report := { baseReport with tables := s.tables, merge_warning := s.warning,
                                      merged_row_count := result.rows.length } }

/-- baseline_columns if baseline_columns else None: the baseline argument
after Python falsy normalisation. -/
def colsArgOf (baseline_columns : Option (List String)) : Option (List String) :=
  match baseline_columns with
  | some l => if l.isEmpty then none else some l
  | none => none

/-- cols_to_use as it stands when the file loop starts: the incremental
superset when requested, else the (normalised) baseline argument. -/
def colsToUse0Of (files : List MergeInput) (baseline_columns : Option (List String))
    (template_incremental : Bool) : Option (List String) :=
  if template_incremental then some (computeIncrementalCols files (colsArgOf baseline_columns))
  else colsArgOf baseline_columns

/-- TableMerger.merge_and_report. An uncaught Python exception is the Except
error case; every normal return is ok. -/
def merge_and_report (files : List MergeInput) (baseline_columns : Option (List String))
    (template_incremental : Bool) (primary_key_columns : Option (List String)) :
    Except String MergeResult :=
  match files with
  | [] => .ok { df := emptyTable,
                report := { error := some "file_paths 为空", merged_row_count := 0 } }
  | f0 :: rest =>
    match mergeHead f0 (colsToUse0Of (f0 :: rest) baseline_columns template_incremental)
        (primary_key_columns.getD []) template_incremental with
    | .inl rep => .ok { df := emptyTable, report := rep }
    | .inr st0 =>
      match mergeLoop (primary_key_columns.getD []) st0 rest with
      | .ok st => .ok (finalizeMerge st (primary_key_columns.getD []) f0.name)
      | .error e => .error e

/-- The loop state a non-aborted merge reaches just before the combine step
(used to phrase which strategy the combine step takes). -/
def mergeStateOf (files : List MergeInput) (baseline_columns : Option (List String))
    (template_incremental : Bool) (primary_key_columns : Option (List String)) :
    Option MState :=
  match files with
  | [] => none
  | f0 :: rest =>
    match mergeHead f0 (colsToUse0Of (f0 :: rest) baseline_columns template_incremental)
        (primary_key_columns.getD []) template_incremental with
    | .inl _ => none
    | .inr st0 => (mergeLoop (primary_key_columns.getD []) st0 rest).toOption

/-- The columns of the first kept table, exactly as it enters the combine
step (for file 0 under a key join with incremental columns these are its own
columns; otherwise the aligned baseline columns). -/
def firstKeptCols (files : List MergeInput) (baseline_columns : Option (List String))
    (template_incremental : Bool) (primary_key_columns : Option (List String)) :
    List String :=
  ((mergeStateOf files baseline_columns template_incremental primary_key_columns).bind
    (fun st => st.merged.head?.map (fun t => t.cols))).getD []

/-- key_cols_use: the supplied primary-key columns present in the first kept
table. -/
def keyColsUseOf (files : List MergeInput) (baseline_columns : Option (List String))
    (template_incremental : Bool) (primary_key_columns : Option (List String)) :
    List String :=
  (primary_key_columns.getD []).filter
    (fun c => (firstKeptCols files baseline_columns template_incremental
      primary_key_columns).contains c)

/-- The row counts of the kept files (entries with status ok), in order. -/
def keptRowCounts (tables : List TableEntry) : List Nat :=
  (tables.filter (fun t => t.status == "ok")).map (fun t => t.row_count)

/-- Sum of the row counts of the kept files (entries with status ok). -/
def keptRowSum (report : SchemaReport) : Nat :=
  (keptRowCounts report.tables).sum

/-- Row count of the first kept file (0 when no file was kept). -/
def firstOkRowCount (report : SchemaReport) : Nat :=
  (keptRowCounts report.tables).headD 0

/-! ## General lemmas -/

theorem colIdx?_self (l : List String) (hnd : l.Nodup) :
    ∀ (n : Nat), (hn : n < l.length) → colIdx? l (l.get ⟨n, hn⟩) = some n := by
  induction l with
  | nil => intro n hn; simp at hn
  | cons a t ih =>
    intro n hn
    match n with
    | 0 => simp [colIdx?]
    | Nat.succ m =>
      have hm : m < t.length := Nat.lt_of_succ_lt_succ hn
      have hmem : t.get ⟨m, hm⟩ ∈ t := List.get_mem ..
      have hne : ¬(a == t.get ⟨m, hm⟩) = true := by
        simp only [beq_iff_eq]
        intro he
        exact (List.nodup_cons.mp hnd).1 (he ▸ hmem)
      simp only [List.get, colIdx?, if_neg hne]
      rw [ih (List.nodup_cons.mp hnd).2 m hm]
      rfl

/-- C8: aligning a table whose column sequence already equals the baseline
column sequence returns the input table unchanged, column-for-column and
row-for-row. The embedding is a pure function, so the input is never
mutated. -/
theorem align_identity_on_aligned (t : Table) (hnd : t.cols.Nodup)
    (hlen : ∀ row ∈ t.rows, row.length = t.cols.length) :
    t.reindex t.cols = t := by
  obtain ⟨cols, rows⟩ := t
  simp only [Table.reindex, Table.mk.injEq, true_and]
  have hrow : ∀ row ∈ rows,
      (cols.map (fun c =>
        match colIdx? cols c with
        | some i => (row[i]?).getD none
        | none => none)) = row := by
    intro row hrow
    apply List.ext_getElem?
    intro n
    rw [List.getElem?_map]
    by_cases hn : n < cols.length
    · rw [List.getElem?_eq_getElem hn]
      have hself := colIdx?_self cols hnd n hn
      have hn2 : n < row.length := by rw [hlen row hrow]; exact hn
      simp only [Option.map_some', List.get_eq_getElem] at hself ⊢
      rw [hself, List.getElem?_eq_getElem hn2]
      show some ((row[n]?).getD none) = some row[n]
      rw [List.getElem?_eq_getElem hn2]
      rfl
    · have hc : cols[n]? = none := List.getElem?_eq_none (Nat.le_of_not_lt hn)
      have hr : row[n]? = none := by
        apply List.getElem?_eq_none
        rw [hlen row hrow]
        exact Nat.le_of_not_lt hn
      rw [hc, hr]
      rfl
  calc rows.map _ = rows.map id := List.map_congr_left (by simpa using hrow)
    _ = rows := List.map_id rows

/-- A concrete already-aligned table for the C8 witness. -/
def exT8 : Table := ⟨["姓名", "分数"], [[some "甲", some "1"], [some "乙", none]]⟩

theorem align_identity_on_aligned_witness : exT8.reindex exT8.cols = exT8 :=
  align_identity_on_aligned exT8 (by decide) (by decide)

/-! ## Concrete merge runs exhibiting the divergences of C2 - C5 -/

/-- C2 failing input: an unreadable first file. -/
def exC2Bad : MergeInput := ⟨"a.csv", .error "boom"⟩

/-- C2 failing input: a readable second file. -/
def exC2Good : MergeInput := ⟨"b.csv", .ok ⟨["A"], [[some "1"]]⟩⟩

/-- C2: when the first file is unreadable the merge never yields a report
with a top-level error. With a later readable file and no baseline the call
raises a TypeError (cols_to_use is still None); with the unreadable file
alone it returns the empty table with the error field unset. -/
theorem merge_unreadable_first_file_diverges :
    merge_and_report [exC2Bad, exC2Good] none false none
      = .error "TypeError: argument of type \x27NoneType\x27 is not iterable"
    ∧ (merge_and_report [exC2Bad] none false none).toOption.map
        (fun r => (r.report.error, r.df, r.report.merged_row_count))
      = some (none, emptyTable, 0) := by
  exact ⟨rfl, rfl⟩

/-- C4 failing input: one readable file with column A, explicit baseline B,
incremental columns and a primary key absent from the file. -/
def exC4File : MergeInput := ⟨"a.csv", .ok ⟨["A"], [[some "x"]]⟩⟩

/-- C4: a non-fatal merge whose merged column sequence differs from the
report's reference columns (the incremental key-join path falls back to
stacking the unaligned anchor without the final re-projection). -/
theorem merge_columns_not_reference_columns :
    (merge_and_report [exC4File] (some ["B"]) true (some ["Z"])).toOption.map
      (fun r => (r.df.cols, r.report.reference_columns, r.report.error))
    = some (["A"], ["B", "A"], none) := by
  exact rfl

/-- C5 failing input: anchor file. -/
def exC5F0 : MergeInput := ⟨"f0.csv", .ok ⟨["K", "A"], [[some "k1", some "a1"]]⟩⟩

/-- C5 failing input: an unreadable middle file. -/
def exC5F1 : MergeInput := ⟨"f1.csv", .error "bad"⟩

/-- C5 failing input: the file actually joined. -/
def exC5F2 : MergeInput := ⟨"f2.csv", .ok ⟨["K", "B"], [[some "k1", some "b1"]]⟩⟩

/-- C5: the join loop indexes the report entries by position in the list of
kept tables, so after an excluded file the match rate lands on the excluded
file's entry (f1, a read_error) while the joined file's entry (f2) keeps
match_rate None. -/
theorem match_rate_recorded_on_wrong_entry :
    (merge_and_report [exC5F0, exC5F1, exC5F2] none false (some ["K"])).toOption.map
      (fun r => (r.report.tables.map (fun e => (e.file, e.status, e.match_rate)),
                 r.report.error))
    = some ([("f0.csv", "ok", none), ("f1.csv", "read_error", some (PyRat.ofNat 1)),
             ("f2.csv", "ok", none)], none) := by
  decide

/-- C3 counterexample input: two stackable files. -/
def exC3F0 : MergeInput := ⟨"a.csv", .ok ⟨["A"], [[some "x"]]⟩⟩

/-- C3 counterexample input: second file. -/
def exC3F1 : MergeInput := ⟨"b.csv", .ok ⟨["A"], [[some "y"]]⟩⟩

/-- C3 counterexample: primary-key columns are supplied (Z) yet none occurs
in the anchor, so the merge stacks: no fatal error, file 0 holds 1 row, but
the merged table holds 2 rows, refuting that a merge with keys supplied
always returns file 0's row count. -/
theorem keyjoin_rowcount_counterexample :
    (merge_and_report [exC3F0, exC3F1] none false (some ["Z"])).toOption.map
      (fun r => (r.report.error, r.df.rows.length,
                 r.report.tables.map (fun e => (e.status, e.row_count))))
    = some (none, 2, [("ok", 1), ("ok", 1)]) := by
  exact rfl

/-! ## Row-count bookkeeping of the merge loop (towards C3) -/

theorem reindex_rows_length (t : Table) (cols : List String) :
    (t.reindex cols).rows.length = t.rows.length := by
  simp [Table.reindex]

theorem keptRowCounts_append (l1 l2 : List TableEntry) :
    keptRowCounts (l1 ++ l2) = keptRowCounts l1 ++ keptRowCounts l2 := by
  simp [keptRowCounts, List.filter_append]

/-- The row-count invariant carried through the merge loop: the kept aligned
tables' row counts agree, in order, with the row counts recorded on the ok
entries of the report. -/
def MInv (st : MState) : Prop :=
  st.merged.map (fun t => t.rows.length) = keptRowCounts st.tables

theorem mergeStepRest_inv (keyCols : List String) (st st2 : MState) (f : MergeInput)
    (h : mergeStepRest keyCols st f = .ok st2) (hinv : MInv st) : MInv st2 := by
  revert h
  unfold mergeStepRest
  cases hf : f.read with
  | error e =>
    intro h
    cases h
    unfold MInv at hinv ⊢
    rw [keptRowCounts_append, hinv]
    simp [keptRowCounts]
  | ok df0 =>
    cases hcu : st.colsToUse with
    | none => intro h; cases h
    | some ctu =>
      dsimp only
      split
      all_goals split
      all_goals intro h
      all_goals cases h
      all_goals unfold MInv at hinv ⊢
      all_goals dsimp only
      all_goals rw [keptRowCounts_append]
      all_goals
        first
        | (rw [hinv]
           simp [keptRowCounts])
        | (rw [List.map_append, hinv]
           simp [keptRowCounts, reindex_rows_length])

theorem mergeLoop_inv (keyCols : List String) :
    ∀ (fs : List MergeInput) (st st2 : MState),
      mergeLoop keyCols st fs = .ok st2 → MInv st → MInv st2 := by
  intro fs
  induction fs with
  | nil =>
    intro st st2 h hinv
    unfold mergeLoop at h
    cases h
    exact hinv
  | cons f fs ih =>
    intro st st2 h hinv
    unfold mergeLoop at h
    cases hs : mergeStepRest keyCols st f with
    | ok stm =>
      rw [hs] at h
      exact ih stm st2 h (mergeStepRest_inv keyCols st stm f hs hinv)
    | error e =>
      rw [hs] at h
      cases h

theorem mergeHead_inv (f0 : MergeInput) (c0 : Option (List String))
    (keyCols : List String) (incr : Bool) (st0 : MState)
    (h : mergeHead f0 c0 keyCols incr = .inr st0) : MInv st0 := by
  revert h
  unfold mergeHead
  cases hf : f0.read with
  | error e =>
    intro h
    cases h
    unfold MInv
    simp [keptRowCounts]
  | ok df0 =>
    dsimp only
    repeat' split
    all_goals intro h
    all_goals cases h
    all_goals unfold MInv
    all_goals simp [keptRowCounts, reindex_rows_length]

theorem mergeHead_inl_error (f0 : MergeInput) (c0 : Option (List String))
    (keyCols : List String) (incr : Bool) (rep : SchemaReport)
    (h : mergeHead f0 c0 keyCols incr = .inl rep) :
    rep.error = some "基准表存在重复列名，无法合并" := by
  revert h
  unfold mergeHead
  cases hf : f0.read with
  | error e => intro h; cases h
  | ok df0 =>
    dsimp only
    repeat' split
    all_goals intro h
    all_goals cases h
    all_goals rfl

theorem length_flatMap' (f : α → List β) : ∀ (l : List α),
    (l.flatMap f).length = (l.map (fun a => (f a).length)).sum := by
  intro l
  induction l with
  | nil => rfl
  | cons a t ih => simp [ih]

theorem concatTables_length (ts : List Table) :
    (concatTables ts).rows.length = (ts.map (fun t => t.rows.length)).sum := by
  unfold concatTables
  dsimp only
  rw [length_flatMap']
  congr 1
  apply List.map_congr_left
  intro t _
  exact reindex_rows_length ..

theorem setMatchRate_summary : ∀ (l : List TableEntry) (i : Nat) (r : PyRat),
    (setMatchRate l i r).map (fun e => (e.status, e.row_count))
      = l.map (fun e => (e.status, e.row_count)) := by
  intro l
  induction l with
  | nil => intro i r; rfl
  | cons e es ih =>
    intro i r
    cases i with
    | zero => simp [setMatchRate]
    | succ j => simp [setMatchRate, ih j r]

theorem joinStep_left_length (anchor : Table) (kcu : List String) (s : JState) (right : Table) :
    (joinStep anchor kcu s right).left.rows.length = s.left.rows.length := by
  unfold joinStep
  dsimp only
  split
  · rfl
  · simp [Table.dropDupSuffixCols, reindex_rows_length, leftJoin]

theorem joinStep_tables_summary (anchor : Table) (kcu : List String) (s : JState) (right : Table) :
    (joinStep anchor kcu s right).tables.map (fun e => (e.status, e.row_count))
      = s.tables.map (fun e => (e.status, e.row_count)) := by
  unfold joinStep
  dsimp only
  split
  · rfl
  · exact setMatchRate_summary ..

theorem joinFold_left_length (anchor : Table) (kcu : List String) :
    ∀ (ts : List Table) (s : JState),
      (ts.foldl (joinStep anchor kcu) s).left.rows.length = s.left.rows.length := by
  intro ts
  induction ts with
  | nil => intro s; rfl
  | cons t ts ih =>
    intro s
    rw [List.foldl_cons, ih, joinStep_left_length]

theorem joinFold_tables_summary (anchor : Table) (kcu : List String) :
    ∀ (ts : List Table) (s : JState),
      (ts.foldl (joinStep anchor kcu) s).tables.map (fun e => (e.status, e.row_count))
        = s.tables.map (fun e => (e.status, e.row_count)) := by
  intro ts
  induction ts with
  | nil => intro s; rfl
  | cons t ts ih =>
    intro s
    rw [List.foldl_cons, ih, joinStep_tables_summary]

theorem keptRowCounts_eq_of_summary : ∀ (l1 l2 : List TableEntry),
    l1.map (fun e => (e.status, e.row_count)) = l2.map (fun e => (e.status, e.row_count)) →
    keptRowCounts l1 = keptRowCounts l2 := by
  intro l1
  induction l1 with
  | nil =>
    intro l2 h
    cases l2 with
    | nil => rfl
    | cons e es => simp at h
  | cons e es ih =>
    intro l2 h
    cases l2 with
    | nil => simp at h
    | cons e2 es2 =>
      simp only [List.map_cons, List.cons.injEq, Prod.mk.injEq] at h
      obtain ⟨⟨hs, hr⟩, ht⟩ := h
      have hrest := ih es2 ht
      unfold keptRowCounts at hrest ⊢
      rw [List.filter_cons, List.filter_cons, hs]
      split
      · simp only [List.map_cons, hr, hrest]
      · exact hrest

/-- C3 (amended): for every merge that returns without raising and without a
top-level fatal error, the merged row count is the sum of the kept files'
row counts whenever no primary-key column was supplied or none of the
supplied key columns occurs in the first kept table as it enters the combine
step (the merge then stacks); when at least one supplied key column occurs
there, the key join runs and the merged row count equals the first kept
file's row count (file 0's, whenever file 0 was kept). -/
theorem merge_row_count_characterised
    (files : List MergeInput) (bc : Option (List String)) (ti : Bool)
    (pk : Option (List String)) (r : MergeResult)
    (h : merge_and_report files bc ti pk = .ok r)
    (herr : r.report.error = none) :
    ((pk.getD [] = [] ∨ keyColsUseOf files bc ti pk = []) →
      r.df.rows.length = keptRowSum r.report)
  ∧ ((pk.getD [] ≠ [] ∧ keyColsUseOf files bc ti pk ≠ []) →
      r.df.rows.length = firstOkRowCount r.report) := by
  cases files with
  | nil =>
    unfold merge_and_report at h
    cases h
    simp at herr
  | cons f0 rest =>
    unfold merge_and_report at h
    dsimp only at h
    cases hh : mergeHead f0 (colsToUse0Of (f0 :: rest) bc ti) (pk.getD []) ti with
    | inl rep =>
      rw [hh] at h
      dsimp only at h
      cases h
      rw [mergeHead_inl_error _ _ _ _ _ hh] at herr
      cases herr
    | inr st0 =>
      rw [hh] at h
      dsimp only at h
      cases hl : mergeLoop (pk.getD []) st0 rest with
      | error e =>
        rw [hl] at h
        dsimp only at h
        cases h
      | ok st =>
        rw [hl] at h
        dsimp only at h
        cases h
        have hinv : MInv st := mergeLoop_inv _ rest st0 st hl (mergeHead_inv _ _ _ _ _ hh)
        unfold MInv at hinv
        have hkcu : keyColsUseOf (f0 :: rest) bc ti pk
            = (pk.getD []).filter
                (fun c => (((st.merged.head?.map (fun t => t.cols))).getD []).contains c) := by
          unfold keyColsUseOf firstKeptCols mergeStateOf
          dsimp only
          rw [hh]
          dsimp only
          rw [hl]
          rfl
        unfold finalizeMerge
        cases hm : st.merged with
        | nil =>
          rw [hm] at hinv
          dsimp only
          constructor
          · intro _
            show ([] : List (List Cell)).length = keptRowSum _
            unfold keptRowSum
            dsimp only
            rw [← hinv]
            rfl
          · intro _
            show ([] : List (List Cell)).length = firstOkRowCount _
            unfold firstOkRowCount
            dsimp only
            rw [← hinv]
            rfl
        | cons anchor restM =>
          rw [hm] at hinv hkcu
          dsimp only at hkcu ⊢
          split
          next hke =>
            -- no primary keys: stacking
            constructor
            · intro _
              show (concatTables (anchor :: restM)).rows.length = keptRowSum _
              unfold keptRowSum
              dsimp only
              rw [concatTables_length, ← hinv]
            · intro hcontra
              rw [List.isEmpty_iff] at hke
              exact absurd hke hcontra.1
          next hke =>
            split
            next hue =>
              -- supplied keys absent from the anchor: stacking
              constructor
              · intro _
                show (concatTables (anchor :: restM)).rows.length = keptRowSum _
                unfold keptRowSum
                dsimp only
                rw [concatTables_length, ← hinv]
              · intro hcontra
                rw [List.isEmpty_iff] at hue
                rw [hkcu] at hcontra
                exact absurd hue hcontra.2
            next hue =>
              -- key join: anchor row count
              constructor
              · intro hdisj
                rcases hdisj with hpk | hfilter
                · exact absurd (List.isEmpty_iff.mpr hpk) hke
                · rw [hkcu] at hfilter
                  exact absurd (List.isEmpty_iff.mpr hfilter) hue
              · intro _
                show ((_ : Table).reindex st.refCols).rows.length = firstOkRowCount _
                rw [reindex_rows_length, joinFold_left_length]
                unfold firstOkRowCount
                dsimp only
                have hsum := joinFold_tables_summary anchor
                  (List.filter (fun c => anchor.cols.contains c) (pk.getD [])) restM
                  { left := anchor, tables := st.tables, warning := none, idx := 1 }
                have hkept := keptRowCounts_eq_of_summary _ _ hsum
                rw [hkept]
                dsimp only
                rw [← hinv]
                rfl

/-- Witness input for the amended C3 theorem: a genuine key join. -/
def exC3W0 : MergeInput :=
  ⟨"w0.csv", .ok ⟨["K", "A"], [[some "k1", some "a1"], [some "k2", some "a2"]]⟩⟩

/-- Witness input for the amended C3 theorem: the joined file. -/
def exC3W1 : MergeInput := ⟨"w1.csv", .ok ⟨["K", "B"], [[some "k1", some "b1"]]⟩⟩

/-- The result of the witness merge for C3. -/
def exC3WRes : MergeResult :=
  (merge_and_report [exC3W0, exC3W1] none false (some ["K"])).toOption.getD
    { df := emptyTable, report := {} }

theorem merge_row_count_characterised_witness :
    (((some ["K"] : Option (List String)).getD [] = []
        ∨ keyColsUseOf [exC3W0, exC3W1] none false (some ["K"]) = []) →
      exC3WRes.df.rows.length = keptRowSum exC3WRes.report)
  ∧ (((some ["K"] : Option (List String)).getD [] ≠ []
        ∧ keyColsUseOf [exC3W0, exC3W1] none false (some ["K"]) ≠ []) →
      exC3WRes.df.rows.length = firstOkRowCount exC3WRes.report) :=
  merge_row_count_characterised [exC3W0, exC3W1] none false (some ["K"]) exC3WRes
    (by rfl) (by decide)

/-! ## Counting lemmas for the scanner passes -/

theorem countP_filterMap' (p : β → Bool) (f : α → Option β) : ∀ (l : List α),
    (l.filterMap f).countP p = l.countP (fun a => ((f a).map p).getD false) := by
  intro l
  induction l with
  | nil => rfl
  | cons a t ih =>
    rw [List.filterMap_cons, List.countP_cons]
    cases hf : f a with
    | none => simp [hf, ih]
    | some b => rw [List.countP_cons]; simp [hf, ih]

theorem countP_flatMap' (p : β → Bool) (f : α → List β) : ∀ (l : List α),
    (l.flatMap f).countP p = (l.map (fun a => (f a).countP p)).sum := by
  intro l
  induction l with
  | nil => rfl
  | cons a t ih => simp [List.countP_append, ih]

theorem sum_map_range_single (ψ : Nat → Nat) (r : Nat)
    (h : ∀ r2, r2 ≠ r → ψ r2 = 0) : ∀ (n : Nat),
    ((List.range n).map ψ).sum = if r < n then ψ r else 0 := by
  intro n
  induction n with
  | zero => simp
  | succ m ih =>
    rw [List.range_succ]
    simp only [List.map_append, List.sum_append, List.map_cons, List.map_nil,
      List.sum_cons, List.sum_nil]
    rw [ih]
    by_cases hm : r < m
    · have hne : m ≠ r := by omega
      have hlt : r < m + 1 := by omega
      simp [hm, hlt, h m hne]
    · by_cases hrm : r = m
      · subst hrm
        simp [hm, Nat.lt_succ_self]
      · have hnlt : ¬ r < m + 1 := by omega
        simp [hm, hnlt, h m (fun he => hrm he.symm)]

theorem countP_key_nodup {α : Type} [BEq α] [LawfulBEq α] (c : α) (b : α → Bool) :
    ∀ (cols : List α),
    cols.Nodup → c ∈ cols →
    cols.countP (fun c2 => (c2 == c) && b c2) = if b c then 1 else 0 := by
  intro cols
  induction cols with
  | nil => intro _ h; cases h
  | cons a t ih =>
    intro hnd hmem
    rw [List.countP_cons]
    rcases List.mem_cons.mp hmem with rfl | hmt
    · have ht0 : t.countP (fun c2 => (c2 == c) && b c2) = 0 := by
        apply List.countP_eq_zero.mpr
        intro x hx
        have hne : ¬(x == c) = true := by
          simp only [beq_iff_eq]
          intro he
          exact (List.nodup_cons.mp hnd).1 (he ▸ hx)
        simp [hne]
      rw [ht0]
      simp
    · have hne : ¬(a == c) = true := by
        simp only [beq_iff_eq]
        intro he
        exact (List.nodup_cons.mp hnd).1 (he ▸ hmt)
      rw [ih (List.nodup_cons.mp hnd).2 hmt]
      simp [hne]

/-! ## Shape of the records each pass produces -/

theorem nullCellRecord_shape (df : Table) (report : SchemaReport) (rowIndex : Nat)
    (col : String) (e : DefectRecord)
    (h : nullCellRecord df report rowIndex col = some e) :
    e.row_index = rowIndex ∧ e.col_name = col ∧ _is_empty (df.getCell rowIndex col) = true ∧
    ((e.error_type = "null_structural" ∧ e.severity = "structural"
        ∧ (missingColsOfFile report (_row_index_to_file_index rowIndex report)).contains col = true)
     ∨ (e.error_type = "null_business" ∧ e.severity = "business"
        ∧ (missingColsOfFile report (_row_index_to_file_index rowIndex report)).contains col = false)) := by
  unfold nullCellRecord at h
  dsimp only at h
  split at h
  · cases h
  · next hemp =>
    have hemp2 : _is_empty (df.getCell rowIndex col) = true := by
      revert hemp
      cases _is_empty (df.getCell rowIndex col) <;> simp
    split at h
    · next hmiss =>
      cases h
      exact ⟨rfl, rfl, hemp2, .inl ⟨rfl, rfl, hmiss⟩⟩
    · next hmiss =>
      cases h
      refine ⟨rfl, rfl, hemp2, .inr ⟨rfl, rfl, ?_⟩⟩
      revert hmiss
      cases (missingColsOfFile report (_row_index_to_file_index rowIndex report)).contains col
        <;> simp

theorem mem_nullErrors_shape (df : Table) (report : SchemaReport) (e : DefectRecord)
    (h : e ∈ nullErrors df report) :
    e.row_index < df.rows.length ∧ e.col_name ∈ df.cols ∧
    _is_empty (df.getCell e.row_index e.col_name) = true ∧
    ((e.error_type = "null_structural" ∧ e.severity = "structural"
        ∧ e.col_name ∈ missingColsOfFile report (_row_index_to_file_index e.row_index report))
     ∨ (e.error_type = "null_business" ∧ e.severity = "business"
        ∧ e.col_name ∉ missingColsOfFile report (_row_index_to_file_index e.row_index report))) := by
  unfold nullErrors nullRowRecords at h
  rw [List.mem_flatMap] at h
  obtain ⟨r2, hr2, hmem⟩ := h
  rw [List.mem_filterMap] at hmem
  obtain ⟨col, hcol, hrec⟩ := hmem
  obtain ⟨hrow, hcoln, hemp, hclass⟩ := nullCellRecord_shape df report r2 col e hrec
  rw [List.mem_range] at hr2
  subst hrow
  subst hcoln
  refine ⟨hr2, hcol, hemp, ?_⟩
  rcases hclass with ⟨ht, hs, hc⟩ | ⟨ht, hs, hc⟩
  · exact .inl ⟨ht, hs, List.elem_iff.mp hc⟩
  · refine .inr ⟨ht, hs, ?_⟩
    intro hmm
    have hc2 : (missingColsOfFile report
        (_row_index_to_file_index e.row_index report)).contains e.col_name = true :=
      List.elem_iff.mpr hmm
    rw [hc] at hc2
    cases hc2

theorem mem_typeErrors_shape (scanner : DataHealthScanner) (df : Table) (e : DefectRecord)
    (h : e ∈ typeErrors scanner df) :
    e.error_type = "type_inconsistent" ∧ e.severity = "business" := by
  unfold typeErrors at h
  rw [List.mem_flatMap] at h
  obtain ⟨col, hcol, hmem⟩ := h
  split at hmem
  · cases hmem
  · rw [List.mem_filterMap] at hmem
    obtain ⟨r2, hr2, hrec⟩ := hmem
    dsimp only at hrec
    split at hrec
    · cases hrec
    · split at hrec
      · cases hrec
      · cases hrec; exact ⟨rfl, rfl⟩

theorem mem_dupScanAux_shape (df : Table) (keyCols : List String) :
    ∀ (rows : List Nat) (seen : List (List String)) (e : DefectRecord),
      e ∈ dupScanAux df keyCols rows seen →
      e.error_type = "duplicate" ∧ e.severity = "business" ∧ e.row_index ∈ rows := by
  intro rows
  induction rows with
  | nil => intro seen e h; cases h
  | cons r0 rs ih =>
    intro seen e h
    unfold dupScanAux at h
    dsimp only at h
    split at h
    · rcases List.mem_cons.mp h with rfl | hmem
      · exact ⟨rfl, rfl, List.mem_cons_self ..⟩
      · obtain ⟨h1, h2, h3⟩ := ih _ _ hmem
        exact ⟨h1, h2, List.mem_cons_of_mem _ h3⟩
    · obtain ⟨h1, h2, h3⟩ := ih _ _ h
      exact ⟨h1, h2, List.mem_cons_of_mem _ h3⟩

theorem mem_duplicateErrors_shape (scanner : DataHealthScanner) (df : Table)
    (e : DefectRecord) (h : e ∈ duplicateErrors scanner df) :
    e.error_type = "duplicate" ∧ e.severity = "business" ∧ e.row_index < df.rows.length := by
  unfold duplicateErrors at h
  dsimp only at h
  split at h
  · cases h
  · obtain ⟨h1, h2, h3⟩ := mem_dupScanAux_shape df _ _ _ e h
    exact ⟨h1, h2, List.mem_range.mp h3⟩

theorem outlierCellRecord_shape (df : Table) (col : String) (lower upper : Option PyFloat)
    (rowIndex : Nat) (e : DefectRecord)
    (h : outlierCellRecord df col lower upper rowIndex = some e) :
    e.row_index = rowIndex ∧ e.col_name = col
      ∧ e.error_type = "outlier" ∧ e.severity = "business" := by
  unfold outlierCellRecord at h
  dsimp only at h
  split at h
  · cases h
  · split at h
    · cases h
    · split at h
      · cases h; exact ⟨rfl, rfl, rfl, rfl⟩
      · cases h

theorem mem_outlierErrors_shape (scanner : DataHealthScanner) (df : Table)
    (e : DefectRecord) (h : e ∈ outlierErrors scanner df) :
    e.error_type = "outlier" ∧ e.severity = "business" := by
  unfold outlierErrors at h
  rw [List.mem_flatMap] at h
  obtain ⟨col, hcol, hmem⟩ := h
  unfold outlierErrorsForCol at hmem
  split at hmem
  · cases hmem
  · dsimp only at hmem
    rcases hbounds : _outlier_bounds_iqr (df.columnCells col) with ⟨lo, hi⟩
    rw [hbounds] at hmem
    cases lo <;> cases hi <;> dsimp only at hmem
    all_goals
      first
      | cases hmem
      | (rw [List.mem_filterMap] at hmem
         obtain ⟨r2, hr2, hrec⟩ := hmem
         obtain ⟨_, _, h3, h4⟩ := outlierCellRecord_shape df col _ _ r2 e hrec
         exact ⟨h3, h4⟩)

theorem mem_patternErrors_shape (compile : String → Option (String → Bool))
    (scanner : DataHealthScanner) (df : Table) (e : DefectRecord)
    (h : e ∈ patternErrors compile scanner df) :
    e.error_type = "pattern_mismatch" ∧ e.severity = "business" := by
  unfold patternErrors at h
  rw [List.mem_flatMap] at h
  obtain ⟨pc, hpc, hmem⟩ := h
  split at hmem
  · cases hmem
  · split at hmem
    · cases hmem
    · rw [List.mem_filterMap] at hmem
      obtain ⟨r2, hr2, hrec⟩ := hmem
      dsimp only at hrec
      split at hrec
      · cases hrec
      · split at hrec
        · cases hrec
        · cases hrec; exact ⟨rfl, rfl⟩

theorem constraintRowRecord_shape (df : Table) (c : Constraint) (rowIndex : Nat)
    (e : DefectRecord) (h : constraintRowRecord df c rowIndex = some e) :
    e.row_index = rowIndex ∧ e.col_name = c.left ++ " vs " ++ c.right
      ∧ e.error_type = "constraint_violation" ∧ e.severity = "business"
      ∧ _eval_constraint (_to_float (df.getCell rowIndex c.left)) c.op
          (_to_float (df.getCell rowIndex c.right)) = false := by
  unfold constraintRowRecord at h
  dsimp only at h
  split at h
  · cases h
  · next heval =>
    cases h
    refine ⟨rfl, rfl, rfl, rfl, ?_⟩
    revert heval
    cases _eval_constraint (_to_float (df.getCell rowIndex c.left)) c.op
      (_to_float (df.getCell rowIndex c.right)) <;> simp

theorem mem_constraintErrorsFor_shape (df : Table) (c : Constraint) (e : DefectRecord)
    (h : e ∈ constraintErrorsFor df c) :
    e.error_type = "constraint_violation" ∧ e.severity = "business" := by
  unfold constraintErrorsFor at h
  split at h
  · cases h
  · rw [List.mem_filterMap] at h
    obtain ⟨r2, hr2, hrec⟩ := h
    obtain ⟨_, _, h3, h4, _⟩ := constraintRowRecord_shape df c r2 e hrec
    exact ⟨h3, h4⟩

theorem mem_constraintErrors_shape (scanner : DataHealthScanner) (df : Table)
    (e : DefectRecord) (h : e ∈ constraintErrors scanner df) :
    e.error_type = "constraint_violation" ∧ e.severity = "business" := by
  unfold constraintErrors at h
  rw [List.mem_flatMap] at h
  obtain ⟨c, hc, hmem⟩ := h
  exact mem_constraintErrorsFor_shape df c e hmem

/-! ## C1: null classification -/

/-- A structural-null record located at a given cell. -/
def isStructNullAt (r : Nat) (c : String) (e : DefectRecord) : Bool :=
  e.error_type == "null_structural" && e.row_index == r && e.col_name == c

/-- A business-null record located at a given cell. -/
def isBusNullAt (r : Nat) (c : String) (e : DefectRecord) : Bool :=
  e.error_type == "null_business" && e.row_index == r && e.col_name == c

theorem nullCellRecord_struct_pred (df : Table) (report : SchemaReport)
    (r : Nat) (c col : String) :
    ((nullCellRecord df report r col).map (isStructNullAt r c)).getD false
      = ((col == c) && (_is_empty (df.getCell r col)
          && (missingColsOfFile report (_row_index_to_file_index r report)).contains col)) := by
  unfold nullCellRecord isStructNullAt
  dsimp only
  split
  · next hemp =>
    have h2 : _is_empty (df.getCell r col) = false := by
      revert hemp
      cases _is_empty (df.getCell r col) <;> simp
    simp [h2]
  · next hemp =>
    have h2 : _is_empty (df.getCell r col) = true := by
      revert hemp
      cases _is_empty (df.getCell r col) <;> simp
    split
    · next hmiss =>
      simp only [h2, hmiss]
      simp [Bool.and_comm]
    · next hmiss =>
      have h3 : (missingColsOfFile report (_row_index_to_file_index r report)).contains col
          = false := by
        revert hmiss
        cases (missingColsOfFile report (_row_index_to_file_index r report)).contains col
          <;> simp
      simp [h2, h3]
      intro _ hm
      have h4 : (missingColsOfFile report (_row_index_to_file_index r report)).contains col
          = true := List.elem_iff.mpr hm
      rw [h3] at h4
      cases h4

theorem nullCellRecord_bus_pred (df : Table) (report : SchemaReport)
    (r : Nat) (c col : String) :
    ((nullCellRecord df report r col).map (isBusNullAt r c)).getD false
      = ((col == c) && (_is_empty (df.getCell r col)
          && !(missingColsOfFile report (_row_index_to_file_index r report)).contains col)) := by
  unfold nullCellRecord isBusNullAt
  dsimp only
  split
  · next hemp =>
    have h2 : _is_empty (df.getCell r col) = false := by
      revert hemp
      cases _is_empty (df.getCell r col) <;> simp
    simp [h2]
  · next hemp =>
    have h2 : _is_empty (df.getCell r col) = true := by
      revert hemp
      cases _is_empty (df.getCell r col) <;> simp
    split
    · next hmiss =>
      simp [h2, hmiss]
      exact fun _ => List.elem_iff.mp hmiss
    · next hmiss =>
      have h3 : (missingColsOfFile report (_row_index_to_file_index r report)).contains col
          = false := by
        revert hmiss
        cases (missingColsOfFile report (_row_index_to_file_index r report)).contains col
          <;> simp
      simp [h2, h3, Bool.and_comm]
      intro _ hm
      have h4 : (missingColsOfFile report (_row_index_to_file_index r report)).contains col
          = true := List.elem_iff.mpr hm
      rw [h3] at h4
      cases h4

theorem contains_eq_decide_mem (l : List String) (a : String) :
    l.contains a = decide (a ∈ l) := by
  by_cases h : a ∈ l
  · simp [h, List.elem_iff.mpr h]
  · have hd : decide (a ∈ l) = false := by simp [h]
    rw [hd]
    exact Bool.eq_false_iff.mpr (fun ht => h (List.elem_iff.mp ht))

theorem isStructNullAt_false_of_type (r : Nat) (c : String) (e : DefectRecord) (ty : String)
    (ht : e.error_type = ty) (hne : (ty == "null_structural") = false) :
    isStructNullAt r c e = false := by
  unfold isStructNullAt
  rw [ht, hne]
  rfl

theorem isBusNullAt_false_of_type (r : Nat) (c : String) (e : DefectRecord) (ty : String)
    (ht : e.error_type = ty) (hne : (ty == "null_business") = false) :
    isBusNullAt r c e = false := by
  unfold isBusNullAt
  rw [ht, hne]
  rfl

theorem nullErrors_countP_struct (df : Table) (report : SchemaReport) (r : Nat) (c : String)
    (hr : r < df.rows.length) (hc : c ∈ df.cols) (hnd : df.cols.Nodup) :
    (nullErrors df report).countP (isStructNullAt r c)
      = if _is_empty (df.getCell r c)
            && (missingColsOfFile report (_row_index_to_file_index r report)).contains c
        then 1 else 0 := by
  have hz : ∀ r2, r2 ≠ r →
      (nullRowRecords df report r2).countP (isStructNullAt r c) = 0 := by
    intro r2 hne
    unfold nullRowRecords
    rw [countP_filterMap']
    apply List.countP_eq_zero.mpr
    intro col hcol
    cases hrec : nullCellRecord df report r2 col with
    | none => simp
    | some e =>
      obtain ⟨hrow, _, _, _⟩ := nullCellRecord_shape _ _ _ _ _ hrec
      simp only [Option.map_some', Option.getD_some]
      have hb : (e.row_index == r) = false := by
        rw [hrow]
        simp [hne]
      unfold isStructNullAt
      simp [hb]
  unfold nullErrors
  rw [countP_flatMap', sum_map_range_single _ r hz df.rows.length, if_pos hr]
  unfold nullRowRecords
  rw [countP_filterMap']
  have hcong : ∀ col ∈ df.cols,
      ((nullCellRecord df report r col).map (isStructNullAt r c)).getD false
        = ((col == c) && (_is_empty (df.getCell r col)
            && (missingColsOfFile report (_row_index_to_file_index r report)).contains col)) :=
    fun col _ => nullCellRecord_struct_pred df report r c col
  rw [List.countP_congr (by simpa using hcong)]
  rw [countP_key_nodup c _ df.cols hnd hc]
  rw [contains_eq_decide_mem]

theorem nullErrors_countP_bus (df : Table) (report : SchemaReport) (r : Nat) (c : String)
    (hr : r < df.rows.length) (hc : c ∈ df.cols) (hnd : df.cols.Nodup) :
    (nullErrors df report).countP (isBusNullAt r c)
      = if _is_empty (df.getCell r c)
            && !(missingColsOfFile report (_row_index_to_file_index r report)).contains c
        then 1 else 0 := by
  have hz : ∀ r2, r2 ≠ r →
      (nullRowRecords df report r2).countP (isBusNullAt r c) = 0 := by
    intro r2 hne
    unfold nullRowRecords
    rw [countP_filterMap']
    apply List.countP_eq_zero.mpr
    intro col hcol
    cases hrec : nullCellRecord df report r2 col with
    | none => simp
    | some e =>
      obtain ⟨hrow, _, _, _⟩ := nullCellRecord_shape _ _ _ _ _ hrec
      simp only [Option.map_some', Option.getD_some]
      have hb : (e.row_index == r) = false := by
        rw [hrow]
        simp [hne]
      unfold isBusNullAt
      simp [hb]
  unfold nullErrors
  rw [countP_flatMap', sum_map_range_single _ r hz df.rows.length, if_pos hr]
  unfold nullRowRecords
  rw [countP_filterMap']
  have hcong : ∀ col ∈ df.cols,
      ((nullCellRecord df report r col).map (isBusNullAt r c)).getD false
        = ((col == c) && (_is_empty (df.getCell r col)
            && !(missingColsOfFile report (_row_index_to_file_index r report)).contains col)) :=
    fun col _ => nullCellRecord_bus_pred df report r c col
  rw [List.countP_congr (by simpa using hcong)]
  rw [countP_key_nodup c _ df.cols hnd hc]
  rw [contains_eq_decide_mem]

/-- C1: for every cell of the scanned table (unique column names, row in
range), the scan emits exactly one structural-null record at that cell when
the cell is empty and its column is among the missing columns of the file
the row is attributed to by walking cumulative row counts, exactly one
business-null record when the cell is empty and the column is not among
them, and no null record otherwise; moreover every null_structural record
in the scan output names a column in its row's file's missing columns and
every null_business record names a column not in them. -/
theorem scan_null_classification
    (compile : String → Option (String → Bool)) (scanner : DataHealthScanner)
    (df : Table) (report : SchemaReport) (r : Nat) (c : String)
    (hr : r < df.rows.length) (hc : c ∈ df.cols) (hnd : df.cols.Nodup) :
    ((scanner.scan compile df report).errors.countP (isStructNullAt r c)
       = if _is_empty (df.getCell r c)
             && (missingColsOfFile report (_row_index_to_file_index r report)).contains c
         then 1 else 0)
  ∧ ((scanner.scan compile df report).errors.countP (isBusNullAt r c)
       = if _is_empty (df.getCell r c)
             && !(missingColsOfFile report (_row_index_to_file_index r report)).contains c
         then 1 else 0)
  ∧ (∀ e ∈ (scanner.scan compile df report).errors, e.error_type = "null_structural" →
       e.col_name ∈ missingColsOfFile report (_row_index_to_file_index e.row_index report))
  ∧ (∀ e ∈ (scanner.scan compile df report).errors, e.error_type = "null_business" →
       e.col_name ∉ missingColsOfFile report (_row_index_to_file_index e.row_index report)) := by
  have herrs : (scanner.scan compile df report).errors
      = nullErrors df report ++ typeErrors scanner df ++ duplicateErrors scanner df
        ++ outlierErrors scanner df ++ patternErrors compile scanner df
        ++ constraintErrors scanner df := rfl
  rw [herrs]
  have z2s : (typeErrors scanner df).countP (isStructNullAt r c) = 0 :=
    List.countP_eq_zero.mpr (fun e he => by
      rw [isStructNullAt_false_of_type r c e _ (mem_typeErrors_shape scanner df e he).1 (by decide)]
      simp)
  have z3s : (duplicateErrors scanner df).countP (isStructNullAt r c) = 0 :=
    List.countP_eq_zero.mpr (fun e he => by
      rw [isStructNullAt_false_of_type r c e _ (mem_duplicateErrors_shape scanner df e he).1 (by decide)]
      simp)
  have z4s : (outlierErrors scanner df).countP (isStructNullAt r c) = 0 :=
    List.countP_eq_zero.mpr (fun e he => by
      rw [isStructNullAt_false_of_type r c e _ (mem_outlierErrors_shape scanner df e he).1 (by decide)]
      simp)
  have z5s : (patternErrors compile scanner df).countP (isStructNullAt r c) = 0 :=
    List.countP_eq_zero.mpr (fun e he => by
      rw [isStructNullAt_false_of_type r c e _ (mem_patternErrors_shape compile scanner df e he).1 (by decide)]
      simp)
  have z6s : (constraintErrors scanner df).countP (isStructNullAt r c) = 0 :=
    List.countP_eq_zero.mpr (fun e he => by
      rw [isStructNullAt_false_of_type r c e _ (mem_constraintErrors_shape scanner df e he).1 (by decide)]
      simp)
  have z2b : (typeErrors scanner df).countP (isBusNullAt r c) = 0 :=
    List.countP_eq_zero.mpr (fun e he => by
      rw [isBusNullAt_false_of_type r c e _ (mem_typeErrors_shape scanner df e he).1 (by decide)]
      simp)
  have z3b : (duplicateErrors scanner df).countP (isBusNullAt r c) = 0 :=
    List.countP_eq_zero.mpr (fun e he => by
      rw [isBusNullAt_false_of_type r c e _ (mem_duplicateErrors_shape scanner df e he).1 (by decide)]
      simp)
  have z4b : (outlierErrors scanner df).countP (isBusNullAt r c) = 0 :=
    List.countP_eq_zero.mpr (fun e he => by
      rw [isBusNullAt_false_of_type r c e _ (mem_outlierErrors_shape scanner df e he).1 (by decide)]
      simp)
  have z5b : (patternErrors compile scanner df).countP (isBusNullAt r c) = 0 :=
    List.countP_eq_zero.mpr (fun e he => by
      rw [isBusNullAt_false_of_type r c e _ (mem_patternErrors_shape compile scanner df e he).1 (by decide)]
      simp)
  have z6b : (constraintErrors scanner df).countP (isBusNullAt r c) = 0 :=
    List.countP_eq_zero.mpr (fun e he => by
      rw [isBusNullAt_false_of_type r c e _ (mem_constraintErrors_shape scanner df e he).1 (by decide)]
      simp)
  refine ⟨?_, ?_, ?_, ?_⟩
  · simp only [List.countP_append, z2s, z3s, z4s, z5s, z6s, Nat.add_zero]
    exact nullErrors_countP_struct df report r c hr hc hnd
  · simp only [List.countP_append, z2b, z3b, z4b, z5b, z6b, Nat.add_zero]
    exact nullErrors_countP_bus df report r c hr hc hnd
  · intro e he ht
    simp only [List.mem_append] at he
    rcases he with ((((h1 | h2) | h3) | h4) | h5) | h6
    · obtain ⟨_, _, _, hclass⟩ := mem_nullErrors_shape df report e h1
      rcases hclass with ⟨_, _, hm⟩ | ⟨hbt, _, _⟩
      · exact hm
      · rw [ht] at hbt
        exact absurd hbt (by decide)
    · have := (mem_typeErrors_shape scanner df e h2).1
      rw [ht] at this
      exact absurd this (by decide)
    · have := (mem_duplicateErrors_shape scanner df e h3).1
      rw [ht] at this
      exact absurd this (by decide)
    · have := (mem_outlierErrors_shape scanner df e h4).1
      rw [ht] at this
      exact absurd this (by decide)
    · have := (mem_patternErrors_shape compile scanner df e h5).1
      rw [ht] at this
      exact absurd this (by decide)
    · have := (mem_constraintErrors_shape scanner df e h6).1
      rw [ht] at this
      exact absurd this (by decide)
  · intro e he ht
    simp only [List.mem_append] at he
    rcases he with ((((h1 | h2) | h3) | h4) | h5) | h6
    · obtain ⟨_, _, _, hclass⟩ := mem_nullErrors_shape df report e h1
      rcases hclass with ⟨hbt, _, _⟩ | ⟨_, _, hm⟩
      · rw [ht] at hbt
        exact absurd hbt (by decide)
      · exact hm
    · have := (mem_typeErrors_shape scanner df e h2).1
      rw [ht] at this
      exact absurd this (by decide)
    · have := (mem_duplicateErrors_shape scanner df e h3).1
      rw [ht] at this
      exact absurd this (by decide)
    · have := (mem_outlierErrors_shape scanner df e h4).1
      rw [ht] at this
      exact absurd this (by decide)
    · have := (mem_patternErrors_shape compile scanner df e h5).1
      rw [ht] at this
      exact absurd this (by decide)
    · have := (mem_constraintErrors_shape scanner df e h6).1
      rw [ht] at this
      exact absurd this (by decide)

/-- Witness table for C1. -/
def exC1Df : Table := ⟨["姓名", "分数"], [[none, some "90"]]⟩

/-- Witness report for C1: the one source file lacked the 姓名 column. -/
def exC1Report : SchemaReport :=
  { tables := [{ file := "a.csv", row_count := 1, missing_columns := ["姓名"] }] }

/-- Witness scanner configuration for C1. -/
def exC1Scanner : DataHealthScanner :=
  { composite_key_columns := ["姓名", "班级"], numeric_columns := ["分数"],
    outlier_columns := [], pattern_columns := [], constraints := [] }

theorem scan_null_classification_witness :
    (0 < exC1Df.rows.length ∧ "姓名" ∈ exC1Df.cols ∧ exC1Df.cols.Nodup)
  ∧ (((exC1Scanner.scan (fun _ => none) exC1Df exC1Report).errors.countP
        (isStructNullAt 0 "姓名")
       = if _is_empty (exC1Df.getCell 0 "姓名")
             && (missingColsOfFile exC1Report
                  (_row_index_to_file_index 0 exC1Report)).contains "姓名"
         then 1 else 0)
    ∧ (((exC1Scanner.scan (fun _ => none) exC1Df exC1Report).errors.countP
          (isBusNullAt 0 "姓名")
)       = if _is_empty (exC1Df.getCell 0 "姓名")
             && !(missingColsOfFile exC1Report
                   (_row_index_to_file_index 0 exC1Report)).contains "姓名"
         then 1 else 0)
    ∧ (∀ e ∈ (exC1Scanner.scan (fun _ => none) exC1Df exC1Report).errors,
         e.error_type = "null_structural" →
         e.col_name ∈ missingColsOfFile exC1Report
           (_row_index_to_file_index e.row_index exC1Report))
    ∧ (∀ e ∈ (exC1Scanner.scan (fun _ => none) exC1Df exC1Report).errors,
         e.error_type = "null_business" →
         e.col_name ∉ missingColsOfFile exC1Report
           (_row_index_to_file_index e.row_index exC1Report))) :=
  ⟨⟨by decide, by decide, by decide⟩,
   scan_null_classification (fun _ => none) exC1Scanner exC1Df exC1Report 0 "姓名"
     (by decide) (by decide) (by decide)⟩

/-! ## C6: cross-column constraints -/

theorem colIdx?_eq_none (c : String) : ∀ (l : List String), c ∉ l → colIdx? l c = none := by
  intro l
  induction l with
  | nil => intro _; rfl
  | cons a t ih =>
    intro h
    unfold colIdx?
    have hne : ¬(a == c) = true := by
      simp only [beq_iff_eq]
      intro he
      exact h (he ▸ List.mem_cons_self ..)
    rw [if_neg hne, ih (fun hm => h (List.mem_cons_of_mem _ hm))]
    rfl

theorem getCell_not_mem (t : Table) (r : Nat) (c : String) (h : c ∉ t.cols) :
    t.getCell r c = none := by
  unfold Table.getCell
  rw [colIdx?_eq_none c t.cols h]
  cases t.rows[r]? <;> rfl

/-- A record located at a given row. -/
def atRow (r : Nat) (e : DefectRecord) : Bool := e.row_index == r

theorem constraintRowRecord_pred (df : Table) (c : Constraint) (r r2 : Nat) :
    ((constraintRowRecord df c r2).map (atRow r)).getD false
      = ((r2 == r) && !(_eval_constraint (_to_float (df.getCell r2 c.left)) c.op
          (_to_float (df.getCell r2 c.right)))) := by
  unfold constraintRowRecord atRow
  dsimp only
  split
  · next heval => simp [heval]
  · next heval =>
    have h2 : _eval_constraint (_to_float (df.getCell r2 c.left)) c.op
        (_to_float (df.getCell r2 c.right)) = false := by
      revert heval
      cases _eval_constraint (_to_float (df.getCell r2 c.left)) c.op
        (_to_float (df.getCell r2 c.right)) <;> simp
    simp [h2]

theorem constraintErrorsFor_countP (df : Table) (c : Constraint) (r : Nat)
    (hl : c.left ≠ "") (hr2 : c.right ≠ "")
    (hlm : c.left ∈ df.cols) (hrm : c.right ∈ df.cols) (hrn : r < df.rows.length) :
    (constraintErrorsFor df c).countP (atRow r)
      = if _eval_constraint (_to_float (df.getCell r c.left)) c.op
            (_to_float (df.getCell r c.right)) then 0 else 1 := by
  unfold constraintErrorsFor
  rw [if_neg ?hguard]
  case hguard =>
    simp only [Bool.or_eq_true, not_or]
    refine ⟨⟨⟨?_, ?_⟩, ?_⟩, ?_⟩
    · simp [hl]
    · simp [hr2]
    · simp
      exact hlm
    · simp
      exact hrm
  rw [countP_filterMap']
  have hcong : ∀ r2 ∈ List.range df.rows.length,
      ((constraintRowRecord df c r2).map (atRow r)).getD false
        = ((r2 == r) && !(_eval_constraint (_to_float (df.getCell r2 c.left)) c.op
            (_to_float (df.getCell r2 c.right)))) :=
    fun r2 _ => constraintRowRecord_pred df c r r2
  rw [List.countP_congr (by simpa using hcong)]
  rw [countP_key_nodup r _ (List.range df.rows.length) (List.nodup_range df.rows.length)
    (List.mem_range.mpr hrn)]
  cases _eval_constraint (_to_float (df.getCell r c.left)) c.op
    (_to_float (df.getCell r c.right)) <;> simp

/-- C6: for every configured cross-column constraint with operator among
>, <, >=, <= and == and non-empty column names, and every row: when either
side fails to parse under the percentage-aware parser the row produces no
constraint record (vacuous compliance); when both sides parse, the row
produces exactly one constraint_violation record precisely when the
evaluated operator is false. -/
theorem constraint_violation_characterised
    (df : Table) (c : Constraint) (r : Nat)
    (hop : c.op = ">" ∨ c.op = "<" ∨ c.op = ">=" ∨ c.op = "<=" ∨ c.op = "==")
    (hl : c.left ≠ "") (hr2 : c.right ≠ "") (hrn : r < df.rows.length) :
    ((_to_float (df.getCell r c.left) = none ∨ _to_float (df.getCell r c.right) = none) →
      (constraintErrorsFor df c).countP (atRow r) = 0)
  ∧ (∀ lv rv, _to_float (df.getCell r c.left) = some lv →
      _to_float (df.getCell r c.right) = some rv →
      (constraintErrorsFor df c).countP (atRow r)
        = if _eval_constraint (some lv) c.op (some rv) then 0 else 1) := by
  constructor
  · intro hfail
    by_cases hlm : c.left ∈ df.cols
    · by_cases hrm : c.right ∈ df.cols
      · rw [constraintErrorsFor_countP df c r hl hr2 hlm hrm hrn]
        have heval : _eval_constraint (_to_float (df.getCell r c.left)) c.op
            (_to_float (df.getCell r c.right)) = true := by
          rcases hfail with hf | hf
          · rw [hf]
            unfold _eval_constraint
            cases _to_float (df.getCell r c.right) <;> rfl
          · rw [hf]
            unfold _eval_constraint
            cases _to_float (df.getCell r c.left) <;> rfl
        rw [heval]
        rfl
      · unfold constraintErrorsFor
        rw [if_pos (show (c.left == "" || c.right == ""
              || !df.cols.contains c.left || !df.cols.contains c.right) = true by
            simp
            exact Or.inr hrm)]
        rfl
    · unfold constraintErrorsFor
      rw [if_pos (show (c.left == "" || c.right == ""
            || !df.cols.contains c.left || !df.cols.contains c.right) = true by
          simp
          exact Or.inl (Or.inr hlm))]
      rfl
  · intro lv rv hlv hrv
    by_cases hlm : c.left ∈ df.cols
    · by_cases hrm : c.right ∈ df.cols
      · rw [constraintErrorsFor_countP df c r hl hr2 hlm hrm hrn, hlv, hrv]
      · rw [getCell_not_mem df r c.right hrm] at hrv
        simp [_to_float] at hrv
    · rw [getCell_not_mem df r c.left hlm] at hlv
      simp [_to_float] at hlv

/-- Witness table for C6. -/
def exC6Df : Table := ⟨["语文", "数学"], [[some "3", some "5"]]⟩

/-- Witness constraint for C6: 语文 should exceed 数学. -/
def exC6C : Constraint := ⟨"语文", ">", "数学"⟩

theorem constraint_violation_characterised_witness :
    ((exC6C.op = ">" ∨ exC6C.op = "<" ∨ exC6C.op = ">=" ∨ exC6C.op = "<="
        ∨ exC6C.op = "==")
      ∧ exC6C.left ≠ "" ∧ exC6C.right ≠ "" ∧ 0 < exC6Df.rows.length)
  ∧ (((_to_float (exC6Df.getCell 0 exC6C.left) = none
        ∨ _to_float (exC6Df.getCell 0 exC6C.right) = none) →
      (constraintErrorsFor exC6Df exC6C).countP (atRow 0) = 0)
    ∧ (∀ lv rv, _to_float (exC6Df.getCell 0 exC6C.left) = some lv →
        _to_float (exC6Df.getCell 0 exC6C.right) = some rv →
        (constraintErrorsFor exC6Df exC6C).countP (atRow 0)
          = if _eval_constraint (some lv) exC6C.op (some rv) then 0 else 1)) :=
  ⟨⟨by decide, by decide, by decide, by decide⟩,
   constraint_violation_characterised exC6Df exC6C 0 (by decide) (by decide)
     (by decide) (by decide)⟩

/-! ## C7: IQR outliers -/

/-- The parseable, non-NaN numeric values of a column, exactly as the bounds
computation of scan pass 4 collects them. -/
def numericOfCol (df : Table) (col : String) : List PyFloat :=
  ((df.columnCells col).filterMap _to_float).filter (fun f => !f.isNan)

/-- An outlier record located at a given cell. -/
def isOutlierAt (r : Nat) (c : String) (e : DefectRecord) : Bool :=
  (e.error_type == "outlier") && (e.row_index == r) && (e.col_name == c)

theorem isOutlierAt_false_of_type (r : Nat) (c : String) (e : DefectRecord) (ty : String)
    (ht : e.error_type = ty) (hne : (ty == "outlier") = false) :
    isOutlierAt r c e = false := by
  unfold isOutlierAt
  rw [ht, hne]
  rfl

theorem sum_map_eq_zero (ψ : α → Nat) : ∀ (l : List α),
    (∀ x ∈ l, ψ x = 0) → (l.map ψ).sum = 0 := by
  intro l
  induction l with
  | nil => intro _; rfl
  | cons a t ih =>
    intro h
    simp only [List.map_cons, List.sum_cons]
    rw [h a (List.mem_cons_self ..), ih (fun x hx => h x (List.mem_cons_of_mem _ hx))]

theorem sum_map_mem_single {α : Type} (c : α) (ψ : α → Nat)
    (h : ∀ c2, c2 ≠ c → ψ c2 = 0) : ∀ (l : List α), l.Nodup → c ∈ l →
    (l.map ψ).sum = ψ c := by
  intro l
  induction l with
  | nil => intro _ hm; cases hm
  | cons a t ih =>
    intro hnd hm
    simp only [List.map_cons, List.sum_cons]
    rcases List.mem_cons.mp hm with rfl | hmt
    · have h0 : (t.map ψ).sum = 0 :=
        sum_map_eq_zero ψ t (fun x hx => h x (fun he => (List.nodup_cons.mp hnd).1 (he ▸ hx)))
      omega
    · have h0 : ψ a = 0 := h a (fun he => (List.nodup_cons.mp hnd).1 (he ▸ hmt))
      have h1 := ih (List.nodup_cons.mp hnd).2 hmt
      omega

theorem mem_outlierErrorsForCol_col (df : Table) (col : String) (e : DefectRecord)
    (h : e ∈ outlierErrorsForCol df col) : e.col_name = col := by
  unfold outlierErrorsForCol at h
  split at h
  · cases h
  · dsimp only at h
    rcases hbounds : _outlier_bounds_iqr (df.columnCells col) with ⟨lo, hi⟩
    rw [hbounds] at h
    cases lo <;> cases hi <;> dsimp only at h
    all_goals
      first
      | cases h
      | (rw [List.mem_filterMap] at h
         obtain ⟨r2, hr2, hrec⟩ := h
         exact (outlierCellRecord_shape df col _ _ r2 e hrec).2.1)

theorem numericOfCol_not_mem (df : Table) (col : String) (h : col ∉ df.cols) :
    numericOfCol df col = [] := by
  unfold numericOfCol Table.columnCells
  have hz : ∀ (l : List Nat),
      ((l.map (fun r => df.getCell r col)).filterMap _to_float) = [] := by
    intro l
    induction l with
    | nil => rfl
    | cons a t ih =>
      simp only [List.map_cons, List.filterMap_cons]
      rw [getCell_not_mem df a col h]
      exact ih
  rw [hz]
  rfl

theorem outlierCellRecord_pred (df : Table) (col : String) (lower upper : Option PyFloat)
    (r r2 : Nat) :
    ((outlierCellRecord df col lower upper r2).map (isOutlierAt r col)).getD false
      = ((r2 == r) && (!(_is_empty (df.getCell r2 col))
          && (match _to_float (df.getCell r2 col) with
              | none => false
              | some f => ((lower.map (fun lo => f.lt lo)).getD false
                  || (upper.map (fun up => up.lt f)).getD false)))) := by
  unfold outlierCellRecord isOutlierAt
  dsimp only
  split
  · next hemp => simp [hemp]
  · next hemp =>
    have hne : _is_empty (df.getCell r2 col) = false := by
      revert hemp
      cases _is_empty (df.getCell r2 col) <;> simp
    cases hf : _to_float (df.getCell r2 col) with
    | none => simp [hne]
    | some f =>
      dsimp only
      split
      · next hflag => simp [hne, hflag, Bool.and_comm]
      · next hflag =>
        have hflag2 : ((lower.map fun lo => f.lt lo).getD false
            || (upper.map fun up => up.lt f).getD false) = false := by
          revert hflag
          cases ((lower.map fun lo => f.lt lo).getD false
              || (upper.map fun up => up.lt f).getD false) <;> simp
        simp [hne, hflag2]

theorem outlierErrorsForCol_small (df : Table) (col : String)
    (hlen : (numericOfCol df col).length < 4) :
    outlierErrorsForCol df col = [] := by
  unfold outlierErrorsForCol
  split
  · rfl
  · have hb : _outlier_bounds_iqr (df.columnCells col) = (none, none) := by
      unfold _outlier_bounds_iqr
      dsimp only
      unfold numericOfCol at hlen
      rw [if_pos hlen]
    dsimp only
    rw [hb]

theorem outlierErrorsForCol_countP (df : Table) (col : String) (r : Nat)
    (lo hi : PyFloat)
    (hr : r < df.rows.length) (hcm : col ∈ df.cols)
    (hb : _outlier_bounds_iqr (df.columnCells col) = (some lo, some hi)) :
    (outlierErrorsForCol df col).countP (isOutlierAt r col)
      = if !(_is_empty (df.getCell r col))
            && (match _to_float (df.getCell r col) with
                | none => false
                | some f => f.lt lo || hi.lt f)
        then 1 else 0 := by
  unfold outlierErrorsForCol
  have hc2 : df.cols.contains col = true := List.elem_iff.mpr hcm
  rw [if_neg (by rw [hc2]; simp)]
  dsimp only
  rw [hb]
  dsimp only
  rw [countP_filterMap']
  have hcong : ∀ r2 ∈ List.range df.rows.length,
      ((outlierCellRecord df col (some lo) (some hi) r2).map (isOutlierAt r col)).getD false
        = ((r2 == r) && (!(_is_empty (df.getCell r2 col))
            && (match _to_float (df.getCell r2 col) with
                | none => false
                | some f => f.lt lo || hi.lt f))) := by
    intro r2 _
    rw [outlierCellRecord_pred]
    cases _to_float (df.getCell r2 col) <;> rfl
  rw [List.countP_congr (by simpa using hcong)]
  rw [countP_key_nodup r _ (List.range df.rows.length) (List.nodup_range df.rows.length)
    (List.mem_range.mpr hr)]

/-- C7: for every column of the union of numeric and outlier columns (for a
row in range): when the column holds fewer than 4 parseable numeric values
the scan emits no outlier record at all for that column; when it holds at
least 4, the scan emits exactly one outlier record at a cell precisely when
the cell is non-empty, parses as a number, and lies outside
[Q1 - 1.5 IQR, Q3 + 1.5 IQR], the bounds collapsing to [Q1, Q3] when the
IQR is zero. -/
theorem outlier_flag_characterised
    (compile : String → Option (String → Bool)) (scanner : DataHealthScanner)
    (df : Table) (report : SchemaReport) (col : String) (r : Nat)
    (hcol : col ∈ outlierColsUnion scanner) (hnd : (outlierColsUnion scanner).Nodup)
    (hr : r < df.rows.length) :
    ((numericOfCol df col).length < 4 →
       (scanner.scan compile df report).errors.countP (isOutlierAt r col) = 0)
  ∧ (4 ≤ (numericOfCol df col).length →
       ∀ lower upper,
         lower = (if ((pyQuantile (numericOfCol df col) (mkPyRat 3 4)).sub
                       (pyQuantile (numericOfCol df col) (mkPyRat 1 4))).eqv
                       (.num (PyRat.ofNat 0))
                  then pyQuantile (numericOfCol df col) (mkPyRat 1 4)
                  else (pyQuantile (numericOfCol df col) (mkPyRat 1 4)).sub
                        ((PyFloat.num (mkPyRat 3 2)).mul
                          ((pyQuantile (numericOfCol df col) (mkPyRat 3 4)).sub
                           (pyQuantile (numericOfCol df col) (mkPyRat 1 4))))) →
         upper = (if ((pyQuantile (numericOfCol df col) (mkPyRat 3 4)).sub
                       (pyQuantile (numericOfCol df col) (mkPyRat 1 4))).eqv
                       (.num (PyRat.ofNat 0))
                  then pyQuantile (numericOfCol df col) (mkPyRat 3 4)
                  else (pyQuantile (numericOfCol df col) (mkPyRat 3 4)).add
                        ((PyFloat.num (mkPyRat 3 2)).mul
                          ((pyQuantile (numericOfCol df col) (mkPyRat 3 4)).sub
                           (pyQuantile (numericOfCol df col) (mkPyRat 1 4))))) →
         (scanner.scan compile df report).errors.countP (isOutlierAt r col)
           = if !(_is_empty (df.getCell r col))
                 && (match _to_float (df.getCell r col) with
                     | none => false
                     | some f => f.lt lower || upper.lt f)
             then 1 else 0) := by
  have herrs : (scanner.scan compile df report).errors
      = nullErrors df report ++ typeErrors scanner df ++ duplicateErrors scanner df
        ++ outlierErrors scanner df ++ patternErrors compile scanner df
        ++ constraintErrors scanner df := rfl
  have z1 : (nullErrors df report).countP (isOutlierAt r col) = 0 :=
    List.countP_eq_zero.mpr (fun e he => by
      obtain ⟨_, _, _, hclass⟩ := mem_nullErrors_shape df report e he
      rcases hclass with ⟨ht, _, _⟩ | ⟨ht, _, _⟩ <;>
        (rw [isOutlierAt_false_of_type r col e _ ht (by decide)]; simp))
  have z2 : (typeErrors scanner df).countP (isOutlierAt r col) = 0 :=
    List.countP_eq_zero.mpr (fun e he => by
      rw [isOutlierAt_false_of_type r col e _ (mem_typeErrors_shape scanner df e he).1
        (by decide)]
      simp)
  have z3 : (duplicateErrors scanner df).countP (isOutlierAt r col) = 0 :=
    List.countP_eq_zero.mpr (fun e he => by
      rw [isOutlierAt_false_of_type r col e _ (mem_duplicateErrors_shape scanner df e he).1
        (by decide)]
      simp)
  have z5 : (patternErrors compile scanner df).countP (isOutlierAt r col) = 0 :=
    List.countP_eq_zero.mpr (fun e he => by
      rw [isOutlierAt_false_of_type r col e _
        (mem_patternErrors_shape compile scanner df e he).1 (by decide)]
      simp)
  have z6 : (constraintErrors scanner df).countP (isOutlierAt r col) = 0 :=
    List.countP_eq_zero.mpr (fun e he => by
      rw [isOutlierAt_false_of_type r col e _ (mem_constraintErrors_shape scanner df e he).1
        (by decide)]
      simp)
  have hcolsum : (outlierErrors scanner df).countP (isOutlierAt r col)
      = (outlierErrorsForCol df col).countP (isOutlierAt r col) := by
    unfold outlierErrors
    rw [countP_flatMap']
    refine sum_map_mem_single col _ ?_ (outlierColsUnion scanner) hnd hcol
    intro c2 hne
    apply List.countP_eq_zero.mpr
    intro e he
    have hcn : e.col_name = c2 := mem_outlierErrorsForCol_col df c2 e he
    unfold isOutlierAt
    rw [hcn]
    have hb : (c2 == col) = false := by
      simp only [beq_eq_false_iff_ne]
      exact hne
    simp [hb]
  constructor
  · intro hlen
    rw [herrs]
    simp only [List.countP_append, z1, z2, z3, z5, z6, Nat.add_zero, Nat.zero_add]
    rw [hcolsum, outlierErrorsForCol_small df col hlen]
    rfl
  · intro hlen lower upper hlow hup
    have hcm : col ∈ df.cols := by
      by_contra hnm
      rw [numericOfCol_not_mem df col hnm] at hlen
      exact absurd hlen (by decide)
    have hnlt : ¬ ((numericOfCol df col).length < 4) := by omega
    have hb : _outlier_bounds_iqr (df.columnCells col) = (some lower, some upper) := by
      by_cases hiqr : ((pyQuantile (numericOfCol df col) (mkPyRat 3 4)).sub
          (pyQuantile (numericOfCol df col) (mkPyRat 1 4))).eqv (.num (PyRat.ofNat 0))
      · unfold _outlier_bounds_iqr
        dsimp only
        unfold numericOfCol at hnlt hiqr hlow hup
        rw [if_neg hnlt, if_pos hiqr, hlow, if_pos hiqr, hup, if_pos hiqr]
      · unfold _outlier_bounds_iqr
        dsimp only
        unfold numericOfCol at hnlt hiqr hlow hup
        rw [if_neg hnlt, if_neg hiqr, hlow, if_neg hiqr, hup, if_neg hiqr]
    rw [herrs]
    simp only [List.countP_append, z1, z2, z3, z5, z6, Nat.add_zero, Nat.zero_add]
    rw [hcolsum, outlierErrorsForCol_countP df col r lower upper hr hcm hb]

/-- Witness table for C7: four ones and a hundred in the score column. -/
def exC7Df : Table :=
  ⟨["分数"], [[some "1"], [some "1"], [some "1"], [some "1"], [some "100"]]⟩

/-- Witness scanner configuration for C7. -/
def exC7Scanner : DataHealthScanner :=
  { composite_key_columns := [], numeric_columns := ["分数"],
    outlier_columns := [], pattern_columns := [], constraints := [] }

/-- Witness report for C7. -/
def exC7Report : SchemaReport :=
  { tables := [{ file := "a.csv", row_count := 5, missing_columns := [] }] }

theorem outlier_flag_characterised_witness :
    ("分数" ∈ outlierColsUnion exC7Scanner ∧ (outlierColsUnion exC7Scanner).Nodup
      ∧ 4 < exC7Df.rows.length)
  ∧ (((numericOfCol exC7Df "分数").length < 4 →
       (exC7Scanner.scan (fun _ => none) exC7Df exC7Report).errors.countP
         (isOutlierAt 4 "分数") = 0)
    ∧ (4 ≤ (numericOfCol exC7Df "分数").length →
       ∀ lower upper,
         lower = (if ((pyQuantile (numericOfCol exC7Df "分数") (mkPyRat 3 4)).sub
                       (pyQuantile (numericOfCol exC7Df "分数") (mkPyRat 1 4))).eqv
                       (.num (PyRat.ofNat 0))
                  then pyQuantile (numericOfCol exC7Df "分数") (mkPyRat 1 4)
                  else (pyQuantile (numericOfCol exC7Df "分数") (mkPyRat 1 4)).sub
                        ((PyFloat.num (mkPyRat 3 2)).mul
                          ((pyQuantile (numericOfCol exC7Df "分数") (mkPyRat 3 4)).sub
                           (pyQuantile (numericOfCol exC7Df "分数") (mkPyRat 1 4))))) →
         upper = (if ((pyQuantile (numericOfCol exC7Df "分数") (mkPyRat 3 4)).sub
                       (pyQuantile (numericOfCol exC7Df "分数") (mkPyRat 1 4))).eqv
                       (.num (PyRat.ofNat 0))
                  then pyQuantile (numericOfCol exC7Df "分数") (mkPyRat 3 4)
                  else (pyQuantile (numericOfCol exC7Df "分数") (mkPyRat 3 4)).add
                        ((PyFloat.num (mkPyRat 3 2)).mul
                          ((pyQuantile (numericOfCol exC7Df "分数") (mkPyRat 3 4)).sub
                           (pyQuantile (numericOfCol exC7Df "分数") (mkPyRat 1 4))))) →
         (exC7Scanner.scan (fun _ => none) exC7Df exC7Report).errors.countP
             (isOutlierAt 4 "分数")
           = if !(_is_empty (exC7Df.getCell 4 "分数"))
                 && (match _to_float (exC7Df.getCell 4 "分数") with
                     | none => false
                     | some f => f.lt lower || upper.lt f)
             then 1 else 0)) :=
  ⟨⟨by decide, by decide, by decide⟩,
   outlier_flag_characterised (fun _ => none) exC7Scanner exC7Df exC7Report "分数" 4
     (by decide) (by decide) (by decide)⟩

/-! ## C9: duplicate composite keys -/

/-- A duplicate record located at a given row. -/
def isDupAt (r : Nat) (e : DefectRecord) : Bool :=
  (e.error_type == "duplicate") && (e.row_index == r)

theorem isDupAt_false_of_type (r : Nat) (e : DefectRecord) (ty : String)
    (ht : e.error_type = ty) (hne : (ty == "duplicate") = false) :
    isDupAt r e = false := by
  unfold isDupAt
  rw [ht, hne]
  rfl

theorem dupScanAux_countP_not_mem (df : Table) (keyCols : List String) (r : Nat)
    (rows : List Nat) (seen : List (List String)) (hnm : r ∉ rows) :
    (dupScanAux df keyCols rows seen).countP (isDupAt r) = 0 := by
  apply List.countP_eq_zero.mpr
  intro e he
  obtain ⟨_, _, h3⟩ := mem_dupScanAux_shape df keyCols rows seen e he
  have hb : (e.row_index == r) = false := by
    simp only [beq_eq_false_iff_ne]
    intro heq
    exact hnm (heq ▸ h3)
  unfold isDupAt
  simp [hb]

theorem dupScanAux_countP (df : Table) (keyCols : List String) (r : Nat) :
    ∀ (len s : Nat) (seen : List (List String)), s ≤ r → r < s + len →
    (dupScanAux df keyCols (List.range' s len) seen).countP (isDupAt r)
      = if (seen.contains (rowKeyTuple df keyCols r)
            || (List.range' s (r - s)).any
                 (fun r2 => rowKeyTuple df keyCols r2 == rowKeyTuple df keyCols r))
        then 1 else 0 := by
  intro len
  induction len with
  | zero => intro s seen hs hlt; omega
  | succ n ih =>
    intro s seen hs hlt
    rw [List.range'_succ s n 1]
    unfold dupScanAux
    dsimp only
    by_cases hsr : s = r
    · subst hsr
      have hnm : s ∉ List.range' (s + 1) n := by
        intro hm
        have := List.mem_range'_1.mp hm
        omega
      have htw : s - s = 0 := by omega
      rw [htw]
      split
      · next hseen =>
        rw [List.countP_cons, dupScanAux_countP_not_mem df keyCols s _ _ hnm, hseen]
        have hd : isDupAt s
            { row_index := s, col_name := String.intercalate "," keyCols,
              error_type := "duplicate", severity := "business",
              message := "与组合主键 " ++ pyReprStrList keyCols ++ " 重复" } = true := by
          unfold isDupAt
          simp
        rw [hd]
        simp
      · next hseen =>
        rw [dupScanAux_countP_not_mem df keyCols s _ _ hnm]
        have hsf : seen.contains (rowKeyTuple df keyCols s) = false := by
          revert hseen
          cases seen.contains (rowKeyTuple df keyCols s) <;> simp
        rw [hsf]
        simp
    · have hrs : r - s = (r - (s + 1)) + 1 := by omega
      rw [hrs, List.range'_succ s (r - (s + 1)) 1]
      have hdf : ∀ msg colName,
          isDupAt r
            { row_index := s, col_name := colName,
              error_type := "duplicate", severity := "business",
              message := msg } = false := by
        intro msg colName
        unfold isDupAt
        have hb : (s == r) = false := by
          simp only [beq_eq_false_iff_ne]
          exact hsr
        simp [hb]
      split
      · next hseen =>
        rw [List.countP_cons, hdf _ _, ih (s + 1) seen (by omega) (by omega),
          List.any_cons]
        by_cases hk : rowKeyTuple df keyCols s = rowKeyTuple df keyCols r
        · have hsr2 : seen.contains (rowKeyTuple df keyCols r) = true := hk ▸ hseen
          rw [hsr2]
          simp
        · have hkb : (rowKeyTuple df keyCols s == rowKeyTuple df keyCols r) = false := by
            simp only [beq_eq_false_iff_ne]
            exact hk
          rw [hkb, Bool.false_or]
          simp
      · next hseen =>
        rw [ih (s + 1) (rowKeyTuple df keyCols s :: seen) (by omega) (by omega),
          List.any_cons]
        by_cases hk : rowKeyTuple df keyCols s = rowKeyTuple df keyCols r
        · rw [hk]
          have hcn : (rowKeyTuple df keyCols r :: seen).contains
              (rowKeyTuple df keyCols r) = true := by
            rw [List.contains_cons]
            simp
          rw [hcn]
          simp
        · have h1 : (rowKeyTuple df keyCols s :: seen).contains
              (rowKeyTuple df keyCols r) = seen.contains (rowKeyTuple df keyCols r) := by
            rw [List.contains_cons]
            have hne2 : (rowKeyTuple df keyCols r == rowKeyTuple df keyCols s) = false := by
              simp only [beq_eq_false_iff_ne]
              exact fun he => hk he.symm
            rw [hne2]
            simp
          have hkb : (rowKeyTuple df keyCols s == rowKeyTuple df keyCols r) = false := by
            simp only [beq_eq_false_iff_ne]
            exact hk
          rw [h1, hkb, Bool.false_or]

theorem duplicateErrors_countP (scanner : DataHealthScanner) (df : Table) (r : Nat)
    (hk : keyColsOf scanner df ≠ []) (hr : r < df.rows.length) :
    (duplicateErrors scanner df).countP (isDupAt r)
      = if (List.range r).any
            (fun r2 => rowKeyTuple df (keyColsOf scanner df) r2
               == rowKeyTuple df (keyColsOf scanner df) r)
        then 1 else 0 := by
  unfold duplicateErrors
  dsimp only
  have hie : (keyColsOf scanner df).isEmpty = false := by
    cases hkc : keyColsOf scanner df with
    | nil => exact absurd hkc hk
    | cons a l => rfl
  rw [if_neg (fun h => Bool.false_ne_true (hie ▸ h))]
  rw [List.range_eq_range' df.rows.length]
  rw [dupScanAux_countP df (keyColsOf scanner df) r df.rows.length 0 [] (by omega)
    (by omega)]
  have hc0 : (([] : List (List String)).contains
      (rowKeyTuple df (keyColsOf scanner df) r)) = false := rfl
  rw [hc0, Nat.sub_zero, ← List.range_eq_range' r]
  simp

/-- C9 (amended: provided at least one configured composite-key column
exists in the table): the scan emits exactly one duplicate record at a row
precisely when some earlier row has an identical key tuple over the
existing key columns (missing values as the empty string); in particular
the first occurrence of a key is never flagged and every later occurrence
is flagged exactly once. -/
theorem duplicate_flag_characterised
    (compile : String → Option (String → Bool)) (scanner : DataHealthScanner)
    (df : Table) (report : SchemaReport) (r : Nat)
    (hk : keyColsOf scanner df ≠ []) (hr : r < df.rows.length) :
    (scanner.scan compile df report).errors.countP (isDupAt r)
      = if (List.range r).any
            (fun r2 => rowKeyTuple df (keyColsOf scanner df) r2
               == rowKeyTuple df (keyColsOf scanner df) r)
        then 1 else 0 := by
  have herrs : (scanner.scan compile df report).errors
      = nullErrors df report ++ typeErrors scanner df ++ duplicateErrors scanner df
        ++ outlierErrors scanner df ++ patternErrors compile scanner df
        ++ constraintErrors scanner df := rfl
  have z1 : (nullErrors df report).countP (isDupAt r) = 0 :=
    List.countP_eq_zero.mpr (fun e he => by
      obtain ⟨_, _, _, hclass⟩ := mem_nullErrors_shape df report e he
      rcases hclass with ⟨ht, _, _⟩ | ⟨ht, _, _⟩ <;>
        (rw [isDupAt_false_of_type r e _ ht (by decide)]; simp))
  have z2 : (typeErrors scanner df).countP (isDupAt r) = 0 :=
    List.countP_eq_zero.mpr (fun e he => by
      rw [isDupAt_false_of_type r e _ (mem_typeErrors_shape scanner df e he).1 (by decide)]
      simp)
  have z4 : (outlierErrors scanner df).countP (isDupAt r) = 0 :=
    List.countP_eq_zero.mpr (fun e he => by
      rw [isDupAt_false_of_type r e _ (mem_outlierErrors_shape scanner df e he).1 (by decide)]
      simp)
  have z5 : (patternErrors compile scanner df).countP (isDupAt r) = 0 :=
    List.countP_eq_zero.mpr (fun e he => by
      rw [isDupAt_false_of_type r e _
        (mem_patternErrors_shape compile scanner df e he).1 (by decide)]
      simp)
  have z6 : (constraintErrors scanner df).countP (isDupAt r) = 0 :=
    List.countP_eq_zero.mpr (fun e he => by
      rw [isDupAt_false_of_type r e _ (mem_constraintErrors_shape scanner df e he).1
        (by decide)]
      simp)
  rw [herrs]
  simp only [List.countP_append, z1, z2, z4, z5, z6, Nat.add_zero, Nat.zero_add]
  exact duplicateErrors_countP scanner df r hk hr

/-- C9 counterexample scanner: the default composite key. -/
def exC9BadScanner : DataHealthScanner :=
  { composite_key_columns := ["姓名", "班级"], numeric_columns := [],
    outlier_columns := [], pattern_columns := [], constraints := [] }

/-- C9 counterexample table: neither key column exists. -/
def exC9BadDf : Table := ⟨["分数"], [[some "1"], [some "2"]]⟩

/-- C9 counterexample report. -/
def exC9BadReport : SchemaReport :=
  { tables := [{ file := "a.csv", row_count := 2, missing_columns := [] }] }

/-- C9 counterexample: when no configured key column exists in the table,
the key tuples built from the existing key columns are empty and hence
identical on every row, so the claim demands a duplicate record on the
second row; the code instead skips the duplicate pass entirely and emits no
duplicate record. -/
theorem duplicate_claim_counterexample :
    keyColsOf exC9BadScanner exC9BadDf = []
  ∧ rowKeyTuple exC9BadDf (keyColsOf exC9BadScanner exC9BadDf) 1
      = rowKeyTuple exC9BadDf (keyColsOf exC9BadScanner exC9BadDf) 0
  ∧ 1 < exC9BadDf.rows.length
  ∧ (exC9BadScanner.scan (fun _ => none) exC9BadDf exC9BadReport).errors.countP
      (fun e => e.error_type == "duplicate") = 0 := by
  decide

/-- C9 witness scanner. -/
def exC9Scanner : DataHealthScanner :=
  { composite_key_columns := ["姓名", "班级"], numeric_columns := [],
    outlier_columns := [], pattern_columns := [], constraints := [] }

/-- C9 witness table: rows 0 and 2 share the composite key. -/
def exC9Df : Table :=
  ⟨["姓名", "班级"],
   [[some "张三", some "一班"], [some "李四", some "一班"], [some "张三", some "一班"]]⟩

/-- C9 witness report. -/
def exC9Report : SchemaReport :=
  { tables := [{ file := "a.csv", row_count := 3, missing_columns := [] }] }

theorem duplicate_flag_characterised_witness :
    (keyColsOf exC9Scanner exC9Df ≠ [] ∧ 2 < exC9Df.rows.length)
  ∧ ((exC9Scanner.scan (fun _ => none) exC9Df exC9Report).errors.countP (isDupAt 2)
      = if (List.range 2).any
            (fun r2 => rowKeyTuple exC9Df (keyColsOf exC9Scanner exC9Df) r2
               == rowKeyTuple exC9Df (keyColsOf exC9Scanner exC9Df) 2)
        then 1 else 0) :=
  ⟨⟨by decide, by decide⟩,
   duplicate_flag_characterised (fun _ => none) exC9Scanner exC9Df exC9Report 2
     (by decide) (by decide)⟩

/-! ## C10: internal consistency of the counts block and the summary -/

/-- Spec side: the summary parts, one per defect kind with a non-zero count,
recomputed from the counts block alone. -/
def partsOfCounts (c : HealthCounts) : List String :=
  (if c.structural_nulls > 0
    then [toString c.structural_nulls ++ " 处结构性空值（合并缺列）"] else [])
    ++ (if c.business_nulls > 0 then [toString c.business_nulls ++ " 处业务空值"] else [])
    ++ (if c.type_errors > 0 then [toString c.type_errors ++ " 处类型不一致"] else [])
    ++ (if c.duplicates > 0 then [toString c.duplicates ++ " 处重复项"] else [])
    ++ (if c.outliers > 0 then [toString c.outliers ++ " 处异常值"] else [])
    ++ (if c.pattern_mismatch > 0 then [toString c.pattern_mismatch ++ " 处格式不匹配"] else [])
    ++ (if c.constraint_violation > 0
        then [toString c.constraint_violation ++ " 处逻辑约束违反"] else [])

/-- Spec side: the summary string the spec prescribes, recomputed from the
counts block alone: it mentions exactly the kinds whose count is non-zero,
or states that nothing was found. -/
def summaryFromCounts (c : HealthCounts) : String :=
  if (partsOfCounts c).isEmpty then "未发现异常"
  else "发现 " ++ String.intercalate "，" (partsOfCounts c)

theorem length_eq_sum_countP7 {α : Type} (p1 p2 p3 p4 p5 p6 p7 : α → Bool) :
    ∀ (l : List α),
    (∀ e ∈ l, (if p1 e = true then 1 else 0) + (if p2 e = true then 1 else 0)
      + (if p3 e = true then 1 else 0) + (if p4 e = true then 1 else 0)
      + (if p5 e = true then 1 else 0) + (if p6 e = true then 1 else 0)
      + (if p7 e = true then 1 else 0) = 1) →
    l.length = l.countP p1 + l.countP p2 + l.countP p3 + l.countP p4
      + l.countP p5 + l.countP p6 + l.countP p7 := by
  intro l
  induction l with
  | nil => intro _; rfl
  | cons a t ih =>
    intro h
    simp only [List.countP_cons, List.length_cons]
    have ha := h a (List.mem_cons_self ..)
    have ht := ih (fun e he => h e (List.mem_cons_of_mem _ he))
    omega

theorem scan_error_kind_partition (compile : String → Option (String → Bool))
    (scanner : DataHealthScanner) (df : Table) (report : SchemaReport) :
    ∀ e ∈ (nullErrors df report ++ typeErrors scanner df ++ duplicateErrors scanner df
        ++ outlierErrors scanner df ++ patternErrors compile scanner df
        ++ constraintErrors scanner df),
      (if (e.severity == "structural") = true then 1 else 0)
      + (if (e.error_type == "null_business") = true then 1 else 0)
      + (if (e.error_type == "type_inconsistent") = true then 1 else 0)
      + (if (e.error_type == "duplicate") = true then 1 else 0)
      + (if (e.error_type == "outlier") = true then 1 else 0)
      + (if (e.error_type == "pattern_mismatch") = true then 1 else 0)
      + (if (e.error_type == "constraint_violation") = true then 1 else 0) = 1 := by
  intro e he
  simp only [List.mem_append] at he
  rcases he with ((((h1 | h2) | h3) | h4) | h5) | h6
  · obtain ⟨_, _, _, hclass⟩ := mem_nullErrors_shape df report e h1
    rcases hclass with ⟨ht, hs, _⟩ | ⟨ht, hs, _⟩ <;> rw [ht, hs] <;> decide
  · obtain ⟨ht, hs⟩ := mem_typeErrors_shape scanner df e h2
    rw [ht, hs]
    decide
  · obtain ⟨ht, hs, _⟩ := mem_duplicateErrors_shape scanner df e h3
    rw [ht, hs]
    decide
  · obtain ⟨ht, hs⟩ := mem_outlierErrors_shape scanner df e h4
    rw [ht, hs]
    decide
  · obtain ⟨ht, hs⟩ := mem_patternErrors_shape compile scanner df e h5
    rw [ht, hs]
    decide
  · obtain ⟨ht, hs⟩ := mem_constraintErrors_shape scanner df e h6
    rw [ht, hs]
    decide

theorem prefix_ne_none_found (s : String) : ("发现 " ++ s) ≠ "未发现异常" := by
  intro h
  have h3 : ("发现 ".data ++ s.data) = "未发现异常".data := by
    rw [← String.data_append "发现 " s, h]
  have h4 : "发现 ".data = ['发', '现', ' '] := by decide
  have h5 : "未发现异常".data = ['未', '发', '现', '异', '常'] := by decide
  rw [h4, h5] at h3
  injection h3 with hc _
  exact absurd hc (by decide)

theorem ifList_empty_iff (n : Nat) (s : String) :
    (if n > 0 then [s] else []) = ([] : List String) ↔ n = 0 := by
  by_cases h : n > 0
  · rw [if_pos h]
    constructor
    · intro hx; cases hx
    · intro hx; omega
  · rw [if_neg h]
    constructor
    · intro _; omega
    · intro _; rfl

theorem partsOfCounts_eq_nil_iff (c : HealthCounts) :
    partsOfCounts c = []
      ↔ (c.structural_nulls = 0 ∧ c.business_nulls = 0 ∧ c.type_errors = 0
          ∧ c.duplicates = 0 ∧ c.outliers = 0 ∧ c.pattern_mismatch = 0
          ∧ c.constraint_violation = 0) := by
  unfold partsOfCounts
  simp only [List.append_eq_nil, ifList_empty_iff]
  tauto

theorem summary_none_iff (c : HealthCounts) :
    summaryFromCounts c = "未发现异常" ↔ partsOfCounts c = [] := by
  unfold summaryFromCounts
  constructor
  · intro h
    by_cases hp : (partsOfCounts c).isEmpty = true
    · exact List.isEmpty_iff.mp hp
    · rw [if_neg hp] at h
      exact absurd h (prefix_ne_none_found _)
  · intro h
    rw [if_pos (by rw [h]; rfl)]

set_option maxHeartbeats 2000000 in
/-- C10: for every scan output, counts.total equals the length of the errors
list and equals the sum of the seven per-kind counts; the summary string is
exactly the one recomputed from the counts block, mentioning each kind whose
count is non-zero; and the summary states that nothing was found precisely
when the total is zero. -/
theorem manifest_counts_consistent (compile : String → Option (String → Bool))
    (scanner : DataHealthScanner) (df : Table) (report : SchemaReport) :
    ((scanner.scan compile df report).counts.total
        = (scanner.scan compile df report).errors.length)
  ∧ ((scanner.scan compile df report).counts.total
        = (scanner.scan compile df report).counts.structural_nulls
          + (scanner.scan compile df report).counts.business_nulls
          + (scanner.scan compile df report).counts.type_errors
          + (scanner.scan compile df report).counts.duplicates
          + (scanner.scan compile df report).counts.outliers
          + (scanner.scan compile df report).counts.pattern_mismatch
          + (scanner.scan compile df report).counts.constraint_violation)
  ∧ ((scanner.scan compile df report).summary
        = summaryFromCounts (scanner.scan compile df report).counts)
  ∧ ((scanner.scan compile df report).summary = "未发现异常"
        ↔ (scanner.scan compile df report).counts.total = 0) := by
  have hpart := scan_error_kind_partition compile scanner df report
  have hlen := length_eq_sum_countP7
    (fun e => e.severity == "structural")
    (fun e => e.error_type == "null_business")
    (fun e => e.error_type == "type_inconsistent")
    (fun e => e.error_type == "duplicate")
    (fun e => e.error_type == "outlier")
    (fun e => e.error_type == "pattern_mismatch")
    (fun e => e.error_type == "constraint_violation")
    (nullErrors df report ++ typeErrors scanner df ++ duplicateErrors scanner df
      ++ outlierErrors scanner df ++ patternErrors compile scanner df
      ++ constraintErrors scanner df)
    hpart
  have et : (scanner.scan compile df report).counts.total
      = (nullErrors df report ++ typeErrors scanner df ++ duplicateErrors scanner df
          ++ outlierErrors scanner df ++ patternErrors compile scanner df
          ++ constraintErrors scanner df).length := rfl
  have e1 : (scanner.scan compile df report).counts.structural_nulls
      = (nullErrors df report ++ typeErrors scanner df ++ duplicateErrors scanner df
          ++ outlierErrors scanner df ++ patternErrors compile scanner df
          ++ constraintErrors scanner df).countP (fun e => e.severity == "structural") := rfl
  have e2 : (scanner.scan compile df report).counts.business_nulls
      = (nullErrors df report ++ typeErrors scanner df ++ duplicateErrors scanner df
          ++ outlierErrors scanner df ++ patternErrors compile scanner df
          ++ constraintErrors scanner df).countP
            (fun e => e.error_type == "null_business") := rfl
  have e3 : (scanner.scan compile df report).counts.type_errors
      = (nullErrors df report ++ typeErrors scanner df ++ duplicateErrors scanner df
          ++ outlierErrors scanner df ++ patternErrors compile scanner df
          ++ constraintErrors scanner df).countP
            (fun e => e.error_type == "type_inconsistent") := rfl
  have e4 : (scanner.scan compile df report).counts.duplicates
      = (nullErrors df report ++ typeErrors scanner df ++ duplicateErrors scanner df
          ++ outlierErrors scanner df ++ patternErrors compile scanner df
          ++ constraintErrors scanner df).countP
            (fun e => e.error_type == "duplicate") := rfl
  have e5 : (scanner.scan compile df report).counts.outliers
      = (nullErrors df report ++ typeErrors scanner df ++ duplicateErrors scanner df
          ++ outlierErrors scanner df ++ patternErrors compile scanner df
          ++ constraintErrors scanner df).countP
            (fun e => e.error_type == "outlier") := rfl
  have e6 : (scanner.scan compile df report).counts.pattern_mismatch
      = (nullErrors df report ++ typeErrors scanner df ++ duplicateErrors scanner df
          ++ outlierErrors scanner df ++ patternErrors compile scanner df
          ++ constraintErrors scanner df).countP
            (fun e => e.error_type == "pattern_mismatch") := rfl
  have e7 : (scanner.scan compile df report).counts.constraint_violation
      = (nullErrors df report ++ typeErrors scanner df ++ duplicateErrors scanner df
          ++ outlierErrors scanner df ++ patternErrors compile scanner df
          ++ constraintErrors scanner df).countP
            (fun e => e.error_type == "constraint_violation") := rfl
  have h2 : (scanner.scan compile df report).counts.total
      = (scanner.scan compile df report).counts.structural_nulls
        + (scanner.scan compile df report).counts.business_nulls
        + (scanner.scan compile df report).counts.type_errors
        + (scanner.scan compile df report).counts.duplicates
        + (scanner.scan compile df report).counts.outliers
        + (scanner.scan compile df report).counts.pattern_mismatch
        + (scanner.scan compile df report).counts.constraint_violation := by
    rw [et, e1, e2, e3, e4, e5, e6, e7]
    exact hlen
  have h3 : (scanner.scan compile df report).summary
      = summaryFromCounts (scanner.scan compile df report).counts := by
    unfold summaryFromCounts partsOfCounts
    rw [e1, e2, e3, e4, e5, e6, e7]
    rfl
  refine ⟨rfl, h2, h3, ?_⟩
  rw [h3, summary_none_iff, partsOfCounts_eq_nil_iff]
  constructor
  · intro hz
    obtain ⟨a1, a2, a3, a4, a5, a6, a7⟩ := hz
    omega
  · intro h0
    omega
